import Mathlib

/-!
Verification development for the chat-backend repository.

We give a shallow embedding of the server source (the single file under
src/unnamed/part_000): the Supabase tables `user_plans` and `payments`
become an explicit `Db` state, each fallible external call (Supabase
queries, OpenAI, ElevenLabs, ffmpeg, rhubarb, the filesystem and the
external AudioManager) becomes an explicit oracle input, and every handler
becomes a pure state-passing function.  Timestamps are naturals (ms since
epoch); the JavaScript `Date.toDateString()` comparison used for the daily
reset is modelled as equality of the calendar-day number `t / msPerDay`.
-/

set_option maxHeartbeats 1000000

namespace ChatBackend

/-! ## Data model: the Supabase tables -/

/-- Row of the `user_plans` table.  The source reads and writes the columns
`user_id`, `plan_type`, `messages_remaining`, `last_reset_date`, `expires_at`
(the `updated_at` column is written but never read, so it is omitted).
`messages_remaining` is an `Int` because the JavaScript number is never
clamped by the store. -/
structure UserPlan where
  user_id : String
  plan_type : String
  messages_remaining : Int
  last_reset_date : Nat
  expires_at : Option Nat
deriving DecidableEq, Repr

/-- Row of the `payments` table, as inserted by `verifyPayment`:
`user_id`, `plan_type`, `transaction_id`, `used_at`, `amount`, plus the
`status` column which starts null and is set to "expired" by the sweep. -/
structure Payment where
  user_id : String
  plan_type : String
  transaction_id : String
  used_at : Nat
  amount : Int
  status : Option String
deriving DecidableEq, Repr

/-- The persistent state: the two Supabase tables the source touches. -/
structure Db where
  user_plans : List UserPlan
  payments : List Payment
deriving DecidableEq, Repr

def Db.empty : Db := ⟨[], []⟩

/-- Milliseconds per day; `Date.toDateString()` equality is modelled as
equality of `t / msPerDay`. -/
def msPerDay : Nat := 86400000

/-- Supabase `.from(user_plans).select(*).eq(user_id, u).single()`:
the first row whose `user_id` matches. -/
def findPlan (db : Db) (u : String) : Option UserPlan :=
  db.user_plans.find? (fun p => p.user_id == u)

/-- Supabase `.update(...).eq(user_id, u)`: apply `f` to every row whose
`user_id` matches. -/
def updatePlanRow (db : Db) (u : String) (f : UserPlan → UserPlan) : Db :=
  { db with user_plans := db.user_plans.map (fun p => if p.user_id == u then f p else p) }

/-- The daily allocation map of `checkMessageLimit` (source lines 169-174),
including the trailing JavaScript default `|| 1`. -/
def messagesAllocation (t : String) : Int :=
  if t == "free" then 1
  else if t == "pro" then 6
  else if t == "pro_plus" then 20
  else if t == "premium" then 50
  else 1

/-! ## Entitlement ledger: checkMessageLimit (source lines 122-211) -/

/-- Which of the three Supabase calls inside `checkMessageLimit` fail.
A failing first select surfaces to the code only as `data = null` (the
source destructures `data` and never tests that `error`), so `selectFails`
makes the lookup behave as if no row existed. -/
structure LimitOracle where
  selectFails : Bool
  insertFails : Bool
  updateFails : Bool
deriving DecidableEq, Repr

def noFailLimit : LimitOracle := ⟨false, false, false⟩

/-- Result shape of `checkMessageLimit` (the catch also attaches an error
message string, which carries no further information and is omitted). -/
structure LimitResult where
  canSend : Bool
  remaining : Int
deriving DecidableEq, Repr

/-- Body of the `try` block of `checkMessageLimit`: select the plan; if
absent create a free plan (1 message); if the stored reset date is on a
different calendar day, reset to the allocation and persist; otherwise
answer from the stored count.  An `error` value models a thrown Supabase
error reaching the catch; every throw happens before any successful write,
so the state component is unchanged on the error paths. -/
def checkMessageLimitTry (db : Db) (o : LimitOracle) (now : Nat) (userId : String) :
    Db × Except String LimitResult :=
  match (if o.selectFails then none else findPlan db userId) with
  | none =>
      if o.insertFails then (db, .error "insert-failed")
      else
        let newPlan : UserPlan :=
          { user_id := userId, plan_type := "free", messages_remaining := 1,
            last_reset_date := now, expires_at := none }
        ({ db with user_plans := db.user_plans ++ [newPlan] },
          .ok { canSend := true, remaining := 1 })
  | some plan =>
      if now / msPerDay ≠ plan.last_reset_date / msPerDay then
        let alloc := messagesAllocation plan.plan_type
        if o.updateFails then (db, .error "update-failed")
        else
          (updatePlanRow db userId
            (fun p => { p with messages_remaining := alloc, last_reset_date := now }),
            .ok { canSend := true, remaining := alloc })
      else
        (db, .ok { canSend := decide (0 < plan.messages_remaining),
                   remaining := plan.messages_remaining })

/-- Function `checkMessageLimit`: the try block wrapped in the catch of source lines
207-210, which converts any thrown error into `canSend = false`,
`remaining = 0`.  The function is total: no exception escapes. -/
def checkMessageLimit (db : Db) (o : LimitOracle) (now : Nat) (userId : String) :
    Db × LimitResult :=
  ((checkMessageLimitTry db o now userId).1,
    match (checkMessageLimitTry db o now userId).2 with
    | .ok r => r
    | .error _ => { canSend := false, remaining := 0 })

/-! ## Entitlement ledger: decrementMessageCount (source lines 214-247) -/

/-- Which of the two Supabase calls inside `decrementMessageCount` fail. -/
structure DecOracle where
  selectFails : Bool
  updateFails : Bool
deriving DecidableEq, Repr

def noFailDec : DecOracle := ⟨false, false⟩

/-- Function `decrementMessageCount`: select the remaining count (`.single()` also
errors when no row exists); if positive, write back `count - 1` for the
user and return the new count, otherwise return the stored count without
writing.  Errors rethrow to the caller (the catch at lines 243-246 logs and
rethrows). -/
def decrementMessageCount (db : Db) (o : DecOracle) (userId : String) :
    Db × Except String Int :=
  if o.selectFails then (db, .error "select-failed")
  else
    match findPlan db userId with
    | none => (db, .error "no-rows")
    | some plan =>
      if 0 < plan.messages_remaining then
        if o.updateFails then (db, .error "update-failed")
        else
          (updatePlanRow db userId
            (fun p => { p with messages_remaining := plan.messages_remaining - 1 }),
            .ok (plan.messages_remaining - 1))
      else (db, .ok plan.messages_remaining)

/-! ## Entitlement ledger: verifyPayment (source lines 250-344) -/

/-- The fixed allow-list `PLAN_TRANSACTION_IDS` (source lines 42-55):
five static codes per paid tier, none for any other tier string. -/
def planTransactionIds (pt : String) : Option (List String) :=
  if pt == "pro" then
    some ["fq82lw7rm04bzjn", "yp63vd9gt58xsar", "jm40cq1he79pwlo",
          "vx91bk4zn23dfmt", "ur26ps5cw80ygxh"]
  else if pt == "pro_plus" then
    some ["nb77tw0jl42vrea", "ko54mf8ye31qzcd", "ed09rh6sn75vxlp",
          "cz85jg2vm61tuqw", "hs27nw4fx09kldb"]
  else if pt == "premium" then
    some ["qa63vm1pr84jzox", "ly48tf7bw52dshk", "gx20rk5cq37vnlu",
          "pw39cl6jd81xzta", "vb16sy0me49qhkn"]
  else none

/-- The `planAmounts` map with its `|| 0` default (source lines 293-297). -/
def planAmounts (pt : String) : Int :=
  if pt == "pro" then 2500
  else if pt == "pro_plus" then 5000
  else if pt == "premium" then 15000
  else 0

/-- The allocation map used by `verifyPayment` (source lines 313-318); it
has no default (the surrounding allow-list check keeps the lookup to the
three paid tiers, where it agrees with `messagesAllocation`). -/
def verifyAllocation (pt : String) : Int :=
  if pt == "free" then 1
  else if pt == "pro" then 6
  else if pt == "pro_plus" then 20
  else if pt == "premium" then 50
  else 0

/-- Which of the fallible Supabase calls inside `verifyPayment` fail.
`planSelectErrCode` is the error code of the informational plan lookup;
the source rethrows it unless the code is PGRST116. -/
structure VerifyOracle where
  checkFails : Bool
  planSelectErrCode : Option String
  insertFails : Bool
  upsertFails : Bool
deriving DecidableEq, Repr

def noFailVerify : VerifyOracle := ⟨false, none, false, false⟩

/-- Result shape of `verifyPayment`: `success` plus a `message` on success
or an `error` string on rejection. -/
structure VerifyResult where
  success : Bool
  message : Option String
  error : Option String
deriving DecidableEq, Repr

def genericVerifyError : VerifyResult :=
  { success := false, message := none,
    error := some "Payment processing failed. Please try again." }

/-- The JavaScript `.trim()`: strip whitespace from both ends, written
structurally over the character list. -/
def jsTrim (s : String) : String :=
  ⟨((s.data.dropWhile Char.isWhitespace).reverse.dropWhile Char.isWhitespace).reverse⟩

/-- The JavaScript normalization `transactionId.toLowerCase().trim()`
(source line 253): lowercase every character, then trim. -/
def normalizeCode (s : String) : String :=
  jsTrim ⟨s.data.map Char.toLower⟩

/-- Supabase `.upsert(...)` keyed on `user_id`: replace every existing row
of the user, or append when the user has none. -/
def upsertPlan (db : Db) (row : UserPlan) : Db :=
  if db.user_plans.any (fun p => p.user_id == row.user_id) then
    { db with user_plans := db.user_plans.map (fun p => if p.user_id == row.user_id then row else p) }
  else { db with user_plans := db.user_plans ++ [row] }

/-- Function `verifyPayment`: normalize the code (lowercase, trim); reject when it
is not in the allow-list for the tier; reject when a payment row with the
same code already exists; otherwise insert the payment row and upsert the
plan row (full quota, reset date now, expiration 30 days out).  The whole
body sits in a try whose catch returns the generic failure result, so the
function is total; each thrown error leaves the state as of that point
(only the payment insert has happened when the plan upsert fails). -/
def verifyPayment (db : Db) (o : VerifyOracle) (now : Nat)
    (userId transactionId planType : String) : Db × VerifyResult :=
  let clean := normalizeCode transactionId
  match planTransactionIds planType with
  | none =>
      (db, { success := false, message := none,
             error := some ("Invalid transaction ID for " ++ planType ++ " plan.") })
  | some ids =>
    if !(ids.contains clean) then
      (db, { success := false, message := none,
             error := some ("Invalid transaction ID for " ++ planType ++ " plan.") })
    else if o.checkFails then (db, genericVerifyError)
    else
      match db.payments.find? (fun p => p.transaction_id == clean) with
      | some _ =>
          (db, { success := false, message := none,
                 error := some "This payment ID has already been used. Please use a different payment ID from the available list." })
      | none =>
        let hardPlanErr : Bool :=
          match o.planSelectErrCode with
          | some c => c != "PGRST116"
          | none => false
        if hardPlanErr then (db, genericVerifyError)
        else if o.insertFails then (db, genericVerifyError)
        else
          let db1 : Db :=
            { db with payments := db.payments ++
                [{ user_id := userId, plan_type := planType, transaction_id := clean,
                   used_at := now, amount := planAmounts planType, status := none }] }
          if o.upsertFails then (db1, genericVerifyError)
          else
            let expiresAt : Option Nat :=
              if planType != "free" then some (now + 30 * 24 * 60 * 60 * 1000) else none
            (upsertPlan db1
              { user_id := userId, plan_type := planType,
                messages_remaining := verifyAllocation planType,
                last_reset_date := now, expires_at := expiresAt },
              { success := true,
                message := some ("Payment verified successfully! Your " ++ planType ++ " plan is now active."),
                error := none })

/-! ## Entitlement ledger: expireOldPlans (source lines 347-406) -/

/-- Failure flags for the expiration sweep: the initial find, and the two
per-user updates (plan revert and payment status), keyed by user id. -/
structure ExpireOracle where
  findFails : Bool
  planUpdateFails : String → Bool
  payUpdateFails : String → Bool

def noFailExpire : ExpireOracle := ⟨false, fun _ => false, fun _ => false⟩

/-- Rows matched by `.lt(expires_at, now).neq(plan_type, free)`; a null
`expires_at` never satisfies the SQL less-than filter. -/
def expiredPlans (db : Db) (now : Nat) : List UserPlan :=
  db.user_plans.filter (fun p =>
    (match p.expires_at with
     | some e => decide (e < now)
     | none => false) && p.plan_type != "free")

/-- One iteration of the sweep loop for a matched plan: if the plan update
errors the source does `continue` (skipping the payment update too);
otherwise the rows of that user revert to the free tier with 1 message and
its payment rows with null status are marked expired (a failure there is
only logged). -/
def expireStep (o : ExpireOracle) (now : Nat) (acc : Db) (plan : UserPlan) : Db :=
  if o.planUpdateFails plan.user_id then acc
  else
    let acc1 := updatePlanRow acc plan.user_id
      (fun p => { p with
          plan_type := "free", messages_remaining := 1,
          expires_at := none, last_reset_date := now })
    if o.payUpdateFails plan.user_id then acc1
    else
      { acc1 with payments := acc1.payments.map (fun pay =>
          if pay.user_id == plan.user_id && pay.status == none then
            { pay with status := some "expired" } else pay) }

/-- Function `expireOldPlans`: snapshot the matched plans from the current state,
then fold the per-record step over them; a failing find aborts the whole
sweep with no changes. -/
def expireOldPlans (db : Db) (o : ExpireOracle) (now : Nat) : Db :=
  if o.findFails then db
  else (expiredPlans db now).foldl (expireStep o now) db

/-! ## Chat pipeline: the POST /chat handler (source lines 412-588)

The external collaborators (filesystem, AudioManager, OpenAI, ElevenLabs,
ffmpeg, rhubarb, the session store) live outside src; each of their calls
is an oracle input deciding success or failure, and the observable calls
are recorded in an event trace. -/

/-- One reply segment as produced by the generation call: `text`,
`facialExpression`, `animation`. -/
structure SegIn where
  text : String
  facialExpression : String
  animation : String
deriving DecidableEq, Repr

/-- One reply segment as returned to the client: the input fields plus the
`audio` (base64 string) and `lipsync` (parsed timing payload, abstracted to
its raw string) attached by the loop, both none for a failed segment. -/
structure SegOut where
  text : String
  facialExpression : String
  animation : String
  audio : Option String
  lipsync : Option String
deriving DecidableEq, Repr

/-- Per-segment oracle: one success flag per external step of the loop body
(source lines 512-549) plus the artifact contents read back on success.
Failures of the two cleanup `fs.unlink` calls are caught at lines 533-538
and only logged, so they are not modelled. -/
structure SegOracle where
  getPathsOk : Bool
  ttsOk : Bool
  getPathsOk2 : Bool
  convPrimaryOk : Bool
  convFallbackOk : Bool
  rhubarbOk : Bool
  readMp3Ok : Bool
  readJsonOk : Bool
  audioData : String
  lipsyncData : String
deriving Repr

/-- Success condition of `lipSyncMessage` (source lines 96-119): the inner
`getFilePaths`, then `optimizeAudioConversation` (primary ffmpeg conversion
with a fallback conversion in its catch), then rhubarb; its catch rethrows,
so any failure is a segment failure. -/
def lipSyncOk (so : SegOracle) : Bool :=
  so.getPathsOk2 && (so.convPrimaryOk || so.convFallbackOk) && so.rhubarbOk

/-- Success condition of the whole loop body for one segment, in source
order: `getFilePaths`, ElevenLabs `textToSpeech`, `lipSyncMessage`, the
mp3 read-back, the lip-sync JSON read-back and parse. -/
def segOk (so : SegOracle) : Bool :=
  so.getPathsOk && so.ttsOk && lipSyncOk so && so.readMp3Ok && so.readJsonOk

/-- The loop body try/catch (source lines 513-548): on success the segment
keeps its text and tags and gains the audio and lip-sync payloads; on any
failure it is replaced by the original text with `audio = null`,
`lipsync = null`, `facialExpression = "sad"`, `animation = "Terrified"`. -/
def processSegment (so : SegOracle) (m : SegIn) : SegOut :=
  if segOk so then
    { text := m.text, facialExpression := m.facialExpression,
      animation := m.animation, audio := some so.audioData,
      lipsync := some so.lipsyncData }
  else
    { text := m.text, facialExpression := "sad", animation := "Terrified",
      audio := none, lipsync := none }

/-- Observable events of one handler run. -/
inductive Ev where
  | checkLimit
  | genCall
  | openSession
  | ttsCall (i : Nat)
  | segmentDone (i : Nat)
  | closeCompleted
  | decrementCall
  | decApplied
  | closeFailed
deriving DecidableEq, Repr

/-- Events of one loop iteration: the ElevenLabs call happens once the file
paths resolved (whether or not it succeeds), and every iteration ends
(success or caught failure) before the next begins. -/
def segEvents (i : Nat) (so : SegOracle) : List Ev :=
  if so.getPathsOk then [.ttsCall i, .segmentDone i] else [.segmentDone i]

/-- The `for` loop over the generated segments, sequential and in index
order. -/
def processLoop (o : Nat → SegOracle) (i : Nat) : List SegIn → List SegOut × List Ev
  | [] => ([], [])
  | m :: rest =>
    let out := processSegment (o i) m
    let (outs, evs) := processLoop o (i + 1) rest
    (out :: outs, segEvents i (o i) ++ evs)

/-- Generation output after `JSON.parse`: either a bare array of segments
or an object wrapping it in a `messages` field (source line 503 unwraps the
envelope). -/
inductive GenValue where
  | bare (msgs : List SegIn)
  | wrapped (msgs : List SegIn)
deriving Repr

def unwrapGen : GenValue → List SegIn
  | .bare msgs => msgs
  | .wrapped msgs => msgs

/-- Oracle for one run of the /chat handler: outcomes of every external
call outside the per-segment loop.  The template-provisioning block at
source lines 418-425 (`fs.access`, then `copyTemplateFilesToUser` when the
access fails) carries no oracle flags: `copyTemplateFilesToUser` in
utils/audioManager.js wraps its whole body in a try/catch that only logs
and never rethrows, so for a string userId that block always falls
through with no observable effect on the response, the store or the
trace. -/
structure ChatOracle where
  limitO : LimitOracle
  hasApiKeys : Bool
  genResult : Except String GenValue
  sessionOpen : Except String String
  seg : Nat → SegOracle
  closeCompletedFails : Bool
  decO : DecOracle

/-- One entry of the 429 upgrade payload (source lines 443-445). -/
structure PlanOffer where
  name : String
  price : Int
  messages : Int
deriving DecidableEq, Repr

/-- The fixed plans list of the 429 response. -/
def upgradePlans : List PlanOffer :=
  [{ name := "Pro", price := 2500, messages := 6 },
   { name := "Pro Plus", price := 5000, messages := 20 },
   { name := "Premium", price := 15000, messages := 50 }]

/-- The fixed two-segment canned reply for blank input (source lines
452-467); the JSON carries no audio or lipsync keys. -/
def defaultMessages : List SegOut :=
  [{ text := "Hey dear... How was your day?", facialExpression := "smile",
     animation := "Talk1", audio := none, lipsync := none },
   { text := "I missed you so much... Please don\x27t go for so long!",
     facialExpression := "sad", animation := "Crying", audio := none,
     lipsync := none }]

/-- The blank-input test `!message || !message.trim()`: an absent, empty or
whitespace-only message. -/
def blankMessage : Option String → Bool
  | none => true
  | some s => jsTrim s == ""

/-- Detail string of the TypeError thrown by `path.join` at source line 418
when `userId` is not a string. -/
def pathTypeError : String := "The path argument must be of type string"

/-- HTTP responses of the /chat handler. -/
inductive ChatResponse where
  | badRequest
  | limitReached (remaining : Int) (plans : List PlanOffer)
  | defaultReply (messages : List SegOut)
  | apiKeyError
  | okReply (messages : List SegOut) (remainingMessages : Int)
  | serverError (details : String)
deriving DecidableEq, Repr

/-- Whether `decrementMessageCount` performs its write on this state: the
select succeeds, a row exists with a positive count, and the update
succeeds. -/
def decrementWrites (db : Db) (o : DecOracle) (u : String) : Bool :=
  !o.selectFails &&
    (match findPlan db u with
     | some p => decide (0 < p.messages_remaining) && !o.updateFails
     | none => false)

/-- The POST /chat handler.  Faithful control flow of source lines 412-588:
the `path.join` on the user id runs before the missing-userId check, so an
absent userId raises a TypeError that falls to the catch-all (500) rather
than reaching the 400 branch; for a string userId the template-provisioning
block is a no-op on the modelled state (`copyTemplateFilesToUser` swallows
every error), so control always reaches the empty-userId check, then the
quota gate, the blank-message canned reply, the API-key check, the
generation call, the session open, the per-segment loop, the session
completion update, and the quota decrement, with the catch-all marking the
session failed (when one was opened) and answering 500. -/
def chatHandler (db : Db) (o : ChatOracle) (now : Nat)
    (userId? message? : Option String) : Db × ChatResponse × List Ev :=
  match userId? with
  | none => (db, .serverError pathTypeError, [])
  | some userId =>
    if userId == "" then (db, .badRequest, [])
    else
      let db1 := (checkMessageLimit db o.limitO now userId).1
      let lim := (checkMessageLimit db o.limitO now userId).2
      if !lim.canSend then
        (db1, .limitReached lim.remaining upgradePlans, [.checkLimit])
      else if blankMessage message? then
        (db1, .defaultReply defaultMessages, [.checkLimit])
      else if !o.hasApiKeys then (db1, .apiKeyError, [.checkLimit])
      else
        match o.genResult with
        | .error e => (db1, .serverError e, [.checkLimit, .genCall])
        | .ok gv =>
          let msgs := unwrapGen gv
          match o.sessionOpen with
          | .error e => (db1, .serverError e, [.checkLimit, .genCall, .openSession])
          | .ok _sid =>
            let outs := (processLoop o.seg 0 msgs).1
            let segEvs := (processLoop o.seg 0 msgs).2
            let evs0 := [Ev.checkLimit, Ev.genCall, Ev.openSession] ++ segEvs
            if o.closeCompletedFails then
              (db1, .serverError "session-update-failed", evs0 ++ [.closeFailed])
            else
              let db2 := (decrementMessageCount db1 o.decO userId).1
              match (decrementMessageCount db1 o.decO userId).2 with
              | .error e =>
                  (db2, .serverError e,
                    evs0 ++ [.closeCompleted, .decrementCall, .closeFailed])
              | .ok n =>
                  (db2, .okReply outs n,
                    evs0 ++ [.closeCompleted, .decrementCall] ++
                      (if decrementWrites db1 o.decO userId then [.decApplied] else []))

/-- Number of segments produced by the generation call of this run. -/
def generatedCount (o : ChatOracle) : Nat :=
  match o.genResult with
  | .ok gv => (unwrapGen gv).length
  | .error _ => 0

/-! ## The POST /verify-payment route (source lines 590-609) -/

/-- Responses of the /verify-payment route: 400 for a missing field, 200 on
success, 400 with the rejection text otherwise, and the 500 of the route
catch, which no execution reaches because `verifyPayment` catches all of
its own errors. -/
inductive PayResponse where
  | missingFields
  | okResp
  | badResp (err : Option String)
  | serverErr
deriving DecidableEq, Repr

/-- The POST /verify-payment handler: reject when any of the three fields
is absent or empty (falsy), otherwise answer 200 or 400 from the
`verifyPayment` result. -/
def verifyPaymentRoute (db : Db) (o : VerifyOracle) (now : Nat)
    (userId? transactionId? planType? : Option String) : Db × PayResponse :=
  match userId?, transactionId?, planType? with
  | some u, some t, some p =>
    if u == "" || t == "" || p == "" then (db, .missingFields)
    else
      let db1 := (verifyPayment db o now u t p).1
      let r := (verifyPayment db o now u t p).2
      (db1, if r.success then .okResp else .badResp r.error)
  | _, _, _ => (db, .missingFields)

/-! ## System operations and reachable states -/

/-- Any one operation the repository can perform on the persistent state. -/
inductive Op where
  | limitOp (o : LimitOracle) (now : Nat) (userId : String)
  | decOp (o : DecOracle) (userId : String)
  | verifyOp (o : VerifyOracle) (now : Nat) (userId tx planType : String)
  | expireOp (o : ExpireOracle) (now : Nat)
  | chatOp (o : ChatOracle) (now : Nat) (userId? message? : Option String)

def applyOp (db : Db) : Op → Db
  | .limitOp o now u => (checkMessageLimit db o now u).1
  | .decOp o u => (decrementMessageCount db o u).1
  | .verifyOp o now u tx pt => (verifyPayment db o now u tx pt).1
  | .expireOp o now => expireOldPlans db o now
  | .chatOp o now u? m? => (chatHandler db o now u? m?).1

def applyOps (db : Db) (ops : List Op) : Db := ops.foldl applyOp db

/-- States reachable by the system from an empty store. -/
def Reachable (db : Db) : Prop := ∃ ops : List Op, applyOps Db.empty ops = db

/-! ## Supporting lemmas about the store primitives -/

theorem findPlan_some_user_id {db : Db} {u : String} {p : UserPlan}
    (hp : findPlan db u = some p) : p.user_id = u := by
  simpa using List.find?_some hp

theorem findPlan_some_mem {db : Db} {u : String} {p : UserPlan}
    (hp : findPlan db u = some p) : p ∈ db.user_plans :=
  List.mem_of_find?_eq_some hp

/-- Searching a user-id-preserving rewrite of the table commutes with the
rewrite. -/
theorem find?_userid_map (l : List UserPlan) (v : String) (g : UserPlan → UserPlan)
    (hg : ∀ p, (g p).user_id = p.user_id) :
    (l.map g).find? (fun p => p.user_id == v) = (l.find? (fun p => p.user_id == v)).map g := by
  rw [List.find?_map]
  have hpred : ((fun p : UserPlan => p.user_id == v) ∘ g) = (fun p => p.user_id == v) := by
    funext p
    simp [Function.comp, hg]
  rw [hpred]

theorem updatePlanRow_preserves_id (u : String) (f : UserPlan → UserPlan)
    (hf : ∀ p, p.user_id = u → (f p).user_id = p.user_id) (p : UserPlan) :
    (if p.user_id == u then f p else p).user_id = p.user_id := by
  by_cases h : (p.user_id == u) = true
  · rw [if_pos h]
    exact hf p (by simpa using h)
  · rw [if_neg h]

theorem findPlan_updatePlanRow (db : Db) (u v : String) (f : UserPlan → UserPlan)
    (hf : ∀ p, p.user_id = u → (f p).user_id = p.user_id) :
    findPlan (updatePlanRow db u f) v
      = (findPlan db v).map (fun p => if p.user_id == u then f p else p) := by
  unfold findPlan updatePlanRow
  exact find?_userid_map db.user_plans v _ (updatePlanRow_preserves_id u f hf)

theorem findPlan_updatePlanRow_self {db : Db} {u : String} {p : UserPlan}
    (hp : findPlan db u = some p) (f : UserPlan → UserPlan)
    (hf : ∀ q, q.user_id = u → (f q).user_id = q.user_id) :
    findPlan (updatePlanRow db u f) u = some (f p) := by
  rw [findPlan_updatePlanRow db u u f hf, hp]
  have : p.user_id = u := findPlan_some_user_id hp
  simp [this]

theorem findPlan_updatePlanRow_other {db : Db} {u v : String} (hne : v ≠ u)
    (f : UserPlan → UserPlan) (hf : ∀ q, q.user_id = u → (f q).user_id = q.user_id) :
    findPlan (updatePlanRow db u f) v = findPlan db v := by
  rw [findPlan_updatePlanRow db u v f hf]
  cases hp : findPlan db v with
  | none => rfl
  | some p =>
    have : p.user_id = v := findPlan_some_user_id hp
    simp [this, hne]

theorem findPlan_append_some {db : Db} {u : String} {p : UserPlan} (l : List UserPlan)
    (hp : findPlan db u = some p) :
    findPlan { db with user_plans := db.user_plans ++ l } u = some p := by
  unfold findPlan at hp ⊢
  simp [List.find?_append, hp]

theorem findPlan_append_none {db : Db} {u : String} (l : List UserPlan)
    (hp : findPlan db u = none) :
    findPlan { db with user_plans := db.user_plans ++ l } u
      = l.find? (fun p => p.user_id == u) := by
  unfold findPlan at hp ⊢
  simp [List.find?_append, hp]

theorem one_le_messagesAllocation (t : String) : 1 ≤ messagesAllocation t := by
  unfold messagesAllocation
  repeat' split <;> norm_num

theorem checkMessageLimitTry_payments (db : Db) (o : LimitOracle) (now : Nat) (u : String) :
    (checkMessageLimitTry db o now u).1.payments = db.payments := by
  unfold checkMessageLimitTry
  repeat' split
  all_goals rfl

theorem checkMessageLimit_payments (db : Db) (o : LimitOracle) (now : Nat) (u : String) :
    (checkMessageLimit db o now u).1.payments = db.payments := by
  unfold checkMessageLimit
  exact checkMessageLimitTry_payments db o now u

theorem decrementMessageCount_payments (db : Db) (o : DecOracle) (u : String) :
    (decrementMessageCount db o u).1.payments = db.payments := by
  unfold decrementMessageCount
  repeat' split
  all_goals rfl

/-- Claim C4, amended.  `checkMessageLimit` never raises to its caller:
every run either completes the try block and returns its result, or an
error is thrown inside the try block (insert or reset-update failure) and
the catch turns it into `canSend = false`, `remaining = 0`.  Totality of
the Lean function is the no-raise part; the disjunction is the catch
behavior.  The original claim — every persistence failure yields
`canSend = false`, `remaining = 0` — is false: the initial select
destructures only `data` and ignores `error` (source lines 127-131), so a
failing select behaves as a missing row and can answer `canSend = true`
through lazy plan creation (see the counterexample below). -/
theorem checkquota_never_raises (db : Db) (o : LimitOracle) (now : Nat) (u : String) :
    (∃ r, (checkMessageLimitTry db o now u).2 = .ok r ∧
        (checkMessageLimit db o now u).2 = r)
    ∨ (∃ e, (checkMessageLimitTry db o now u).2 = .error e ∧
        (checkMessageLimit db o now u).2 = { canSend := false, remaining := 0 }) := by
  unfold checkMessageLimit
  cases h : (checkMessageLimitTry db o now u).2 with
  | ok r => exact Or.inl ⟨r, rfl, by simp [h]⟩
  | error e => exact Or.inr ⟨e, rfl, by simp [h]⟩

/-- Claim C5.  With an existing entitlement record and a healthy store,
two quota checks on the same calendar day (no decrement in between) return
the same remaining value: the daily reset fires at most once per day. -/
theorem daily_reset_idempotent (db : Db) (u : String) (p : UserPlan)
    (hp : findPlan db u = some p) (t1 t2 : Nat)
    (hday : t1 / msPerDay = t2 / msPerDay) :
    ((checkMessageLimit db noFailLimit t1 u).2).remaining
      = ((checkMessageLimit (checkMessageLimit db noFailLimit t1 u).1 noFailLimit t2 u).2).remaining := by
  unfold checkMessageLimit checkMessageLimitTry
  simp only [noFailLimit, if_false, Bool.false_eq_true, ite_false, hp]
  by_cases hsame : t1 / msPerDay = p.last_reset_date / msPerDay
  · have hsame2 : t2 / msPerDay = p.last_reset_date / msPerDay := by omega
    simp [hsame, hsame2, hp]
  · have hupd := @findPlan_updatePlanRow_self db u p hp
      (fun q => { q with
        messages_remaining := messagesAllocation p.plan_type, last_reset_date := t1 })
      (fun q _ => rfl)
    have ht : t2 / msPerDay = t1 / msPerDay := hday.symm
    simp [hsame, hupd, ht]

/-- Witness for C5 at a concrete store: a pro user whose last reset was on
day 3, checked twice on day 4. -/
theorem daily_reset_idempotent_runs :
    findPlan ⟨[⟨"alice", "pro", 2, 259200000, none⟩], []⟩ "alice"
        = some ⟨"alice", "pro", 2, 259200000, none⟩
    ∧ (345600000 : Nat) / msPerDay = 345600007 / msPerDay
    ∧ ((checkMessageLimit ⟨[⟨"alice", "pro", 2, 259200000, none⟩], []⟩ noFailLimit 345600000 "alice").2).remaining
      = ((checkMessageLimit (checkMessageLimit ⟨[⟨"alice", "pro", 2, 259200000, none⟩], []⟩ noFailLimit 345600000 "alice").1 noFailLimit 345600007 "alice").2).remaining :=
  ⟨by decide, by decide,
    daily_reset_idempotent ⟨[⟨"alice", "pro", 2, 259200000, none⟩], []⟩ "alice"
      ⟨"alice", "pro", 2, 259200000, none⟩ (by decide) 345600000 345600007 (by decide)⟩

/-! ## The ledger invariant

Every stored remaining count is bounded by the daily allocation of the plan
type of the first row of its user; every repository operation preserves
this, which is what makes the daily reset of `checkMessageLimit` a
non-decreasing write on every reachable state. -/

def PlanInv (db : Db) : Prop :=
  ∀ u p, findPlan db u = some p → ∀ q ∈ db.user_plans, q.user_id = u →
    q.messages_remaining ≤ messagesAllocation p.plan_type

theorem planInv_empty : PlanInv Db.empty := by
  intro u p hp
  simp [findPlan, Db.empty] at hp

theorem planInv_set_payments {db : Db} (x : List Payment) (h : PlanInv db) :
    PlanInv { db with payments := x } := h

theorem findPlan_none_no_row {db : Db} {u : String} (h : findPlan db u = none) :
    ∀ q ∈ db.user_plans, q.user_id ≠ u := by
  intro q hq
  have := List.find?_eq_none.mp h q hq
  simpa using this

theorem any_false_findPlan_none {db : Db} {u : String}
    (h : db.user_plans.any (fun p => p.user_id == u) = false) :
    findPlan db u = none := by
  cases hf : findPlan db u with
  | none => rfl
  | some p =>
    have hmem := findPlan_some_mem hf
    have hid := findPlan_some_user_id hf
    have : db.user_plans.any (fun p => p.user_id == u) = true :=
      List.any_eq_true.mpr ⟨p, hmem, by simp [hid]⟩
    rw [h] at this
    exact absurd this (by simp)

/-- A uniform rewrite of one user whose written count is bounded by the
allocation of the rewritten first row keeps the invariant. -/
theorem updatePlanRow_preserves_inv (db : Db) (u : String) (f : UserPlan → UserPlan) (m : Int)
    (hfid : ∀ q, q.user_id = u → (f q).user_id = q.user_id)
    (hm : ∀ q, (f q).messages_remaining = m)
    (hbound : ∀ p0, findPlan db u = some p0 → m ≤ messagesAllocation ((f p0).plan_type))
    (hinv : PlanInv db) : PlanInv (updatePlanRow db u f) := by
  intro v p hp q hq hqid
  rw [findPlan_updatePlanRow db u v f hfid] at hp
  obtain ⟨p0, hp0, hgp⟩ := Option.map_eq_some'.mp hp
  have hp0id : p0.user_id = v := findPlan_some_user_id hp0
  obtain ⟨q0, hq0mem, hq0⟩ := List.mem_map.mp hq
  by_cases hq0u : q0.user_id = u
  · -- the row q was rewritten, so its user is u, hence v = u
    have hq0beq : (q0.user_id == u) = true := by simp [hq0u]
    have hqf : q = f q0 := by rw [← hq0, hq0beq, if_pos rfl]
    have hvu : v = u := by
      rw [← hqid, hqf, hfid q0 hq0u, hq0u]
    subst hvu
    have hp0u : (p0.user_id == v) = true := by simp [hp0id]
    have hpf : p = f p0 := by rw [← hgp, hp0u, if_pos rfl]
    rw [hqf, hpf, hm q0]
    exact hbound p0 hp0
  · -- the row q belongs to another user and is untouched, as is its first row
    have hq0beq : (q0.user_id == u) = false := by simp [hq0u]
    have hqf : q = q0 := by rw [← hq0, hq0beq]; simp
    have hvne : v ≠ u := by
      rw [← hqid, hqf]
      exact hq0u
    have hp0beq : (p0.user_id == u) = false := by simp [hp0id, hvne]
    have hpf : p = p0 := by rw [← hgp, hp0beq]; simp
    rw [hqf, hpf]
    exact hinv v p0 hp0 q0 hq0mem (by rw [← hqf, hqid])

/-- Appending one row keeps the invariant, provided the new count is
bounded by the allocation of the existing first row of its user (when
there is one) and by its own allocation (when there is none). -/
theorem append_preserves_inv (db : Db) (r : UserPlan)
    (hbound : ∀ p0, findPlan db r.user_id = some p0 →
        r.messages_remaining ≤ messagesAllocation p0.plan_type)
    (hself : findPlan db r.user_id = none →
        r.messages_remaining ≤ messagesAllocation r.plan_type)
    (hinv : PlanInv db) : PlanInv { db with user_plans := db.user_plans ++ [r] } := by
  intro v p hp q hq hqid
  have hq2 : q ∈ db.user_plans ∨ q = r := by
    rcases List.mem_append.mp hq with h | h
    · exact Or.inl h
    · exact Or.inr (by simpa using h)
  cases hfv : findPlan db v with
  | some p0 =>
    have : findPlan { db with user_plans := db.user_plans ++ [r] } v = some p0 :=
      findPlan_append_some [r] hfv
    rw [hp] at this
    obtain rfl : p = p0 := Option.some.inj this
    rcases hq2 with hq3 | hq3
    · exact hinv v p hfv q hq3 hqid
    · subst hq3
      have : q.user_id = v := hqid
      rw [← this] at hfv
      exact hbound p hfv
  | none =>
    have hfind : findPlan { db with user_plans := db.user_plans ++ [r] } v
        = [r].find? (fun p => p.user_id == v) := findPlan_append_none [r] hfv
    rw [hp] at hfind
    have hrp : r = p ∧ (r.user_id == v) = true := by
      by_cases hb : (r.user_id == v) = true
      · refine ⟨?_, hb⟩
        simp only [List.find?, hb] at hfind
        injection hfind.symm
      · simp only [List.find?, Bool.not_eq_true] at hb
        simp [List.find?, hb] at hfind
    obtain ⟨rfl, hb⟩ := hrp
    rcases hq2 with hq3 | hq3
    · exact absurd hqid (findPlan_none_no_row hfv q hq3)
    · subst hq3
      have hvr : q.user_id = v := hqid
      rw [← hvr] at hfv
      exact hself hfv

theorem checkMessageLimitTry_preserves_inv (db : Db) (o : LimitOracle) (now : Nat)
    (u : String) (hinv : PlanInv db) : PlanInv (checkMessageLimitTry db o now u).1 := by
  unfold checkMessageLimitTry
  cases h : (if o.selectFails then none else findPlan db u) with
  | none =>
    by_cases hins : o.insertFails = true
    · simpa [hins] using hinv
    · simp only [Bool.not_eq_true] at hins
      simp only [hins, Bool.false_eq_true, if_false]
      exact append_preserves_inv db _
        (fun p0 _ => one_le_messagesAllocation p0.plan_type)
        (fun _ => by norm_num [messagesAllocation])
        hinv
  | some plan =>
    by_cases hday : now / msPerDay ≠ plan.last_reset_date / msPerDay
    · by_cases hupd : o.updateFails = true
      · simpa [hday, hupd] using hinv
      · simp only [Bool.not_eq_true] at hupd
        simp only [hupd, Bool.false_eq_true, if_false]
        rw [if_pos hday]
        have hsel : findPlan db u = some plan := by
          by_cases hs : o.selectFails = true
          · rw [if_pos hs] at h
            exact absurd h (by simp)
          · simp only [Bool.not_eq_true] at hs
            rw [hs] at h
            simpa using h
        exact updatePlanRow_preserves_inv db u
          (fun p => { p with
            messages_remaining := messagesAllocation plan.plan_type,
            last_reset_date := now })
          (messagesAllocation plan.plan_type)
          (fun q _ => rfl) (fun q => rfl)
          (fun p0 hp0 => by
            rw [hsel] at hp0
            obtain rfl : plan = p0 := by injection hp0
            exact le_refl _)
          hinv
    · simpa [hday] using hinv

theorem checkMessageLimit_preserves_inv (db : Db) (o : LimitOracle) (now : Nat)
    (u : String) (hinv : PlanInv db) : PlanInv (checkMessageLimit db o now u).1 := by
  unfold checkMessageLimit
  exact checkMessageLimitTry_preserves_inv db o now u hinv

theorem decrementMessageCount_preserves_inv (db : Db) (o : DecOracle) (u : String)
    (hinv : PlanInv db) : PlanInv (decrementMessageCount db o u).1 := by
  unfold decrementMessageCount
  by_cases hs : o.selectFails = true
  · simpa [hs] using hinv
  · simp only [Bool.not_eq_true] at hs
    simp only [hs, Bool.false_eq_true, if_false]
    cases hf : findPlan db u with
    | none => exact hinv
    | some plan =>
      by_cases hpos : (0 : Int) < plan.messages_remaining
      · by_cases hupd : o.updateFails = true
        · simpa [hpos, hupd] using hinv
        · simp only [Bool.not_eq_true] at hupd
          simp only [hpos, if_true, hupd, Bool.false_eq_true, if_false]
          have hple := hinv u plan hf plan (findPlan_some_mem hf) (findPlan_some_user_id hf)
          exact updatePlanRow_preserves_inv db u
            (fun p => { p with messages_remaining := plan.messages_remaining - 1 })
            (plan.messages_remaining - 1)
            (fun q _ => rfl) (fun q => rfl)
            (fun p0 hp0 => by
              rw [hf] at hp0
              obtain rfl : plan = p0 := by injection hp0
              show plan.messages_remaining - 1 ≤ messagesAllocation plan.plan_type
              omega)
            hinv
      · simpa [hpos] using hinv

theorem verifyAllocation_le {pt : String} {ids : List String}
    (h : planTransactionIds pt = some ids) :
    verifyAllocation pt ≤ messagesAllocation pt := by
  unfold planTransactionIds at h
  by_cases h1 : (pt == "pro") = true
  · have : pt = "pro" := by simpa using h1
    subst this
    norm_num [verifyAllocation, messagesAllocation]
  · by_cases h2 : (pt == "pro_plus") = true
    · have : pt = "pro_plus" := by simpa using h2
      subst this
      norm_num [verifyAllocation, messagesAllocation]
    · by_cases h3 : (pt == "premium") = true
      · have : pt = "premium" := by simpa using h3
        subst this
        norm_num [verifyAllocation, messagesAllocation]
      · rw [if_neg (by simp_all), if_neg (by simp_all), if_neg (by simp_all)] at h
        exact absurd h (by simp)

theorem upsertPlan_preserves_inv (db : Db) (row : UserPlan)
    (hrow : row.messages_remaining ≤ messagesAllocation row.plan_type)
    (hinv : PlanInv db) : PlanInv (upsertPlan db row) := by
  unfold upsertPlan
  by_cases hany : db.user_plans.any (fun p => p.user_id == row.user_id) = true
  · rw [if_pos hany]
    exact updatePlanRow_preserves_inv db row.user_id (fun _ => row) row.messages_remaining
      (fun q hq => by rw [hq]) (fun q => rfl)
      (fun p0 _ => hrow)
      hinv
  · rw [if_neg hany]
    simp only [Bool.not_eq_true] at hany
    have hnone := any_false_findPlan_none hany
    exact append_preserves_inv db row
      (fun p0 hp0 => absurd hp0 (by rw [hnone]; simp))
      (fun _ => hrow)
      hinv

/-- The payment row inserted by a successful verification. -/
def verifyPayRow (now : Nat) (u tx pt : String) : Payment :=
  { user_id := u, plan_type := pt, transaction_id := normalizeCode tx,
    used_at := now, amount := planAmounts pt, status := none }

/-- The plan row upserted by a successful verification. -/
def verifyPlanRow (now : Nat) (u pt : String) : UserPlan :=
  { user_id := u, plan_type := pt, messages_remaining := verifyAllocation pt,
    last_reset_date := now,
    expires_at := if pt != "free" then some (now + 30 * 24 * 60 * 60 * 1000) else none }

/-- Every run of `verifyPayment` ends one of three ways: rejected with the
store unchanged; failed after appending the payment row (the plan upsert
errored); or fully successful, appending the payment row and upserting the
plan row of a tier that passed the allow-list.  Only the last reports
success. -/
theorem verifyPayment_cases (db : Db) (o : VerifyOracle) (now : Nat) (u tx pt : String) :
    ((verifyPayment db o now u tx pt).1 = db
      ∧ (verifyPayment db o now u tx pt).2.success = false)
    ∨ ((verifyPayment db o now u tx pt).1
        = { db with payments := db.payments ++ [verifyPayRow now u tx pt] }
      ∧ (verifyPayment db o now u tx pt).2.success = false)
    ∨ (∃ ids, planTransactionIds pt = some ids ∧
        (verifyPayment db o now u tx pt).1
          = upsertPlan { db with payments := db.payments ++ [verifyPayRow now u tx pt] }
              (verifyPlanRow now u pt)
        ∧ (verifyPayment db o now u tx pt).2.success = true) := by
  unfold verifyPayment verifyPayRow verifyPlanRow
  cases hids : planTransactionIds pt with
  | none => left; exact ⟨rfl, rfl⟩
  | some ids =>
    simp only []
    repeat' split
    all_goals first
      | (left; exact ⟨rfl, rfl⟩)
      | (right; left; exact ⟨rfl, rfl⟩)
      | (right; right; exact ⟨ids, rfl, rfl, rfl⟩)

theorem upsertPlan_payments (db : Db) (row : UserPlan) :
    (upsertPlan db row).payments = db.payments := by
  unfold upsertPlan
  split
  · rfl
  · rfl

theorem verifyPayment_preserves_inv (db : Db) (o : VerifyOracle) (now : Nat)
    (u tx pt : String) (hinv : PlanInv db) :
    PlanInv (verifyPayment db o now u tx pt).1 := by
  rcases verifyPayment_cases db o now u tx pt with ⟨h, _⟩ | ⟨h, _⟩ | ⟨ids, hids, h, _⟩
  · rw [h]; exact hinv
  · rw [h]; exact planInv_set_payments _ hinv
  · rw [h]
    exact upsertPlan_preserves_inv _ _
      (verifyAllocation_le hids)
      (planInv_set_payments _ hinv)

theorem foldl_preserve {α : Type} (P : Db → Prop) (step : Db → α → Db)
    (hstep : ∀ acc x, P acc → P (step acc x)) :
    ∀ (l : List α) (acc : Db), P acc → P (l.foldl step acc) := by
  intro l
  induction l with
  | nil => intro acc h; exact h
  | cons x xs ih => intro acc h; exact ih (step acc x) (hstep acc x h)

theorem expireStep_preserves_inv (o : ExpireOracle) (now : Nat) (acc : Db)
    (plan : UserPlan) (hinv : PlanInv acc) : PlanInv (expireStep o now acc plan) := by
  unfold expireStep
  by_cases hpf : o.planUpdateFails plan.user_id = true
  · simpa [hpf] using hinv
  · simp only [hpf, Bool.false_eq_true, if_false]
    have hupd : PlanInv (updatePlanRow acc plan.user_id
        (fun p => { p with
          plan_type := "free", messages_remaining := 1,
          expires_at := none, last_reset_date := now })) := by
      refine updatePlanRow_preserves_inv acc plan.user_id _ 1
        (fun q _ => rfl) (fun q => rfl) (fun p0 _ => ?_) hinv
      norm_num [messagesAllocation]
    by_cases hpay : o.payUpdateFails plan.user_id = true
    · simpa [hpay] using hupd
    · simp only [hpay, Bool.false_eq_true, if_false]
      exact planInv_set_payments _ hupd

theorem expireOldPlans_preserves_inv (db : Db) (o : ExpireOracle) (now : Nat)
    (hinv : PlanInv db) : PlanInv (expireOldPlans db o now) := by
  unfold expireOldPlans
  by_cases hff : o.findFails = true
  · simpa [hff] using hinv
  · simp only [hff, Bool.false_eq_true, if_false]
    exact foldl_preserve PlanInv (expireStep o now)
      (fun acc x h => expireStep_preserves_inv o now acc x h)
      (expiredPlans db now) db hinv

/-- The /chat handler touches the ledger only through the quota gate and,
after it, the decrement: its final store is the input store, the gate
output, or the decrement applied to the gate output. -/
theorem chatHandler_db_cases (db : Db) (o : ChatOracle) (now : Nat)
    (userId? message? : Option String) :
    (chatHandler db o now userId? message?).1 = db
    ∨ ∃ u, userId? = some u ∧
      ((chatHandler db o now userId? message?).1 = (checkMessageLimit db o.limitO now u).1
       ∨ (chatHandler db o now userId? message?).1
           = (decrementMessageCount (checkMessageLimit db o.limitO now u).1 o.decO u).1) := by
  cases userId? with
  | none => left; rfl
  | some u =>
    unfold chatHandler
    simp only []
    repeat' split
    all_goals first
      | (left; rfl)
      | (right; exact ⟨u, rfl, Or.inl rfl⟩)
      | (right; exact ⟨u, rfl, Or.inr rfl⟩)

theorem applyOp_preserves_inv (db : Db) (op : Op) (hinv : PlanInv db) :
    PlanInv (applyOp db op) := by
  cases op with
  | limitOp o now u => exact checkMessageLimit_preserves_inv db o now u hinv
  | decOp o u => exact decrementMessageCount_preserves_inv db o u hinv
  | verifyOp o now u tx pt => exact verifyPayment_preserves_inv db o now u tx pt hinv
  | expireOp o now => exact expireOldPlans_preserves_inv db o now hinv
  | chatOp o now u? m? =>
    show PlanInv (chatHandler db o now u? m?).1
    rcases chatHandler_db_cases db o now u? m? with h | ⟨u, _, h | h⟩
    · rw [h]; exact hinv
    · rw [h]; exact checkMessageLimit_preserves_inv db o.limitO now u hinv
    · rw [h]
      exact decrementMessageCount_preserves_inv _ o.decO u
        (checkMessageLimit_preserves_inv db o.limitO now u hinv)

theorem reachable_planInv {db : Db} (h : Reachable db) : PlanInv db := by
  obtain ⟨ops, hops⟩ := h
  rw [← hops]
  exact foldl_preserve PlanInv applyOp
    (fun acc x h => applyOp_preserves_inv acc x h) ops Db.empty planInv_empty

/-- On an invariant-satisfying store, a quota check never lowers any stored
remaining count: the only write that touches an existing row is the daily
reset, which writes the full allocation, an upper bound of the stored
count. -/
theorem checkMessageLimit_no_decrease {db : Db} (hinv : PlanInv db)
    (o : LimitOracle) (now : Nat) (u v : String) {p p' : UserPlan}
    (hp : findPlan db v = some p)
    (hp' : findPlan (checkMessageLimit db o now u).1 v = some p') :
    p.messages_remaining ≤ p'.messages_remaining := by
  unfold checkMessageLimit checkMessageLimitTry at hp'
  revert hp'
  cases h : (if o.selectFails then none else findPlan db u) with
  | none =>
    dsimp only
    by_cases hins : o.insertFails = true
    · rw [if_pos hins]
      intro hp'
      have hp2 : findPlan db v = some p' := hp'
      rw [hp] at hp2
      obtain rfl : p = p' := Option.some.inj hp2
      exact le_refl _
    · rw [if_neg hins]
      intro hp'
      have hp2 : findPlan { db with user_plans := db.user_plans ++
          [{ user_id := u, plan_type := "free", messages_remaining := 1,
             last_reset_date := now, expires_at := none }] } v = some p' := hp'
      rw [findPlan_append_some _ hp] at hp2
      obtain rfl : p = p' := Option.some.inj hp2
      exact le_refl _
  | some plan =>
    dsimp only
    by_cases hday : now / msPerDay ≠ plan.last_reset_date / msPerDay
    · rw [if_pos hday]
      by_cases hupd : o.updateFails = true
      · rw [if_pos hupd]
        intro hp'
        have hp2 : findPlan db v = some p' := hp'
        rw [hp] at hp2
        obtain rfl : p = p' := Option.some.inj hp2
        exact le_refl _
      · rw [if_neg hupd]
        intro hp'
        have hsel : findPlan db u = some plan := by
          by_cases hs : o.selectFails = true
          · rw [if_pos hs] at h
            exact absurd h (by simp)
          · rw [if_neg hs] at h
            exact h
        have hp2 : findPlan (updatePlanRow db u (fun q => { q with
            messages_remaining := messagesAllocation plan.plan_type,
            last_reset_date := now })) v = some p' := hp'
        rw [findPlan_updatePlanRow db u v (fun q => { q with
            messages_remaining := messagesAllocation plan.plan_type,
            last_reset_date := now }) (fun q _ => rfl), hp,
          Option.map_some'] at hp2
        by_cases hpu : (p.user_id == u) = true
        · rw [if_pos hpu] at hp2
          obtain rfl := Option.some.inj hp2
          show p.messages_remaining ≤ messagesAllocation plan.plan_type
          have hpid : p.user_id = u := by simpa using hpu
          have hplanp : plan = p := by
            have hvu : v = u := by rw [← findPlan_some_user_id hp, hpid]
            rw [hvu] at hp
            rw [hsel] at hp
            exact Option.some.inj hp
          subst hplanp
          exact hinv v plan hp plan (findPlan_some_mem hp) (findPlan_some_user_id hp)
        · rw [if_neg hpu] at hp2
          obtain rfl : p = p' := Option.some.inj hp2
          exact le_refl _
    · rw [if_neg hday]
      intro hp'
      have hp2 : findPlan db v = some p' := hp'
      rw [hp] at hp2
      obtain rfl : p = p' := Option.some.inj hp2
      exact le_refl _

/-- Claim C6.  On every reachable store, `checkMessageLimit` never lowers
any stored remaining count; and `decrementMessageCount` subtracts exactly
one and persists when the stored count is positive (never going negative),
and otherwise returns the stored count unchanged without writing. -/
theorem quota_monotone_and_decrement_exact :
    (∀ db, Reachable db → ∀ (o : LimitOracle) (now : Nat) (u v : String) (p p' : UserPlan),
        findPlan db v = some p →
        findPlan (checkMessageLimit db o now u).1 v = some p' →
        p.messages_remaining ≤ p'.messages_remaining)
    ∧ (∀ (db : Db) (o : DecOracle) (u : String) (p : UserPlan),
        findPlan db u = some p →
        ((0 < p.messages_remaining → o.selectFails = false → o.updateFails = false →
            (decrementMessageCount db o u).2 = .ok (p.messages_remaining - 1)
            ∧ findPlan (decrementMessageCount db o u).1 u
                = some { p with messages_remaining := p.messages_remaining - 1 }
            ∧ 0 ≤ p.messages_remaining - 1)
          ∧ (p.messages_remaining ≤ 0 → o.selectFails = false →
              (decrementMessageCount db o u).1 = db
              ∧ (decrementMessageCount db o u).2 = .ok p.messages_remaining))) := by
  constructor
  · intro db hreach o now u v p p' hp hp'
    exact checkMessageLimit_no_decrease (reachable_planInv hreach) o now u v hp hp'
  · intro db o u p hp
    constructor
    · intro hpos hs hu
      unfold decrementMessageCount
      rw [hs]
      simp only [Bool.false_eq_true, if_false]
      rw [hp]
      dsimp only
      rw [if_pos hpos, if_neg (by rw [hu]; exact Bool.false_ne_true)]
      refine ⟨rfl, ?_, by omega⟩
      exact findPlan_updatePlanRow_self hp _ (fun q _ => rfl)
    · intro hle hs
      unfold decrementMessageCount
      rw [hs]
      simp only [Bool.false_eq_true, if_false]
      rw [hp]
      dsimp only
      rw [if_neg (by omega : ¬ (0 < p.messages_remaining))]
      exact ⟨rfl, rfl⟩

/-- Witness for C6: the first part at a store reached by one quota check
from empty (the lazily created free plan), the second at a pro user with
two messages left. -/
theorem quota_monotone_and_decrement_exact_runs :
    ((1 : Int) ≤ 1)
    ∧ ((decrementMessageCount ⟨[⟨"bob", "pro", 2, 0, none⟩], []⟩ noFailDec "bob").2
          = .ok ((2 : Int) - 1)
        ∧ findPlan (decrementMessageCount ⟨[⟨"bob", "pro", 2, 0, none⟩], []⟩ noFailDec "bob").1 "bob"
          = some ⟨"bob", "pro", (2 : Int) - 1, 0, none⟩
        ∧ (0 : Int) ≤ (2 : Int) - 1) :=
  ⟨quota_monotone_and_decrement_exact.1
      (applyOps Db.empty [Op.limitOp noFailLimit 0 "alice"])
      ⟨[Op.limitOp noFailLimit 0 "alice"], rfl⟩
      noFailLimit 0 "alice" "alice"
      ⟨"alice", "free", 1, 0, none⟩ ⟨"alice", "free", 1, 0, none⟩
      (by decide) (by decide),
    (quota_monotone_and_decrement_exact.2 ⟨[⟨"bob", "pro", 2, 0, none⟩], []⟩
      noFailDec "bob" ⟨"bob", "pro", 2, 0, none⟩ (by decide)).1
      (by decide) rfl rfl⟩

/-! ## Global single-use of payment codes -/

/-- A transaction code is consumed: some payment row carries it. -/
def codeUsed (db : Db) (c : String) : Prop :=
  ∃ pay ∈ db.payments, pay.transaction_id = c

theorem codeUsed_of_payments_eq {db1 db2 : Db} {c : String}
    (h : db2.payments = db1.payments) (hc : codeUsed db1 c) : codeUsed db2 c := by
  obtain ⟨pay, hmem, htid⟩ := hc
  exact ⟨pay, by rw [h]; exact hmem, htid⟩

theorem chatHandler_payments (db : Db) (o : ChatOracle) (now : Nat)
    (userId? message? : Option String) :
    (chatHandler db o now userId? message?).1.payments = db.payments := by
  rcases chatHandler_db_cases db o now userId? message? with h | ⟨u, _, h | h⟩
  · rw [h]
  · rw [h, checkMessageLimit_payments]
  · rw [h, decrementMessageCount_payments, checkMessageLimit_payments]

theorem expireStep_codeUsed (o : ExpireOracle) (now : Nat) (acc : Db)
    (plan : UserPlan) (c : String) (h : codeUsed acc c) :
    codeUsed (expireStep o now acc plan) c := by
  unfold expireStep
  by_cases h1 : o.planUpdateFails plan.user_id = true
  · rw [if_pos h1]; exact h
  · rw [if_neg h1]
    by_cases h2 : o.payUpdateFails plan.user_id = true
    · rw [if_pos h2]; exact h
    · rw [if_neg h2]
      obtain ⟨pay, hmem, htid⟩ := h
      refine ⟨if pay.user_id == plan.user_id && pay.status == none then
          { pay with status := some "expired" } else pay, ?_, ?_⟩
      · exact List.mem_map.mpr ⟨pay, hmem, rfl⟩
      · split
        · exact htid
        · exact htid

theorem expireOldPlans_codeUsed (db : Db) (o : ExpireOracle) (now : Nat)
    (c : String) (h : codeUsed db c) : codeUsed (expireOldPlans db o now) c := by
  unfold expireOldPlans
  by_cases hff : o.findFails = true
  · rw [if_pos hff]; exact h
  · rw [if_neg hff]
    exact foldl_preserve (fun d => codeUsed d c) (expireStep o now)
      (fun acc x hx => expireStep_codeUsed o now acc x c hx)
      (expiredPlans db now) db h

theorem verifyPayment_codeUsed (db : Db) (o : VerifyOracle) (now : Nat)
    (u tx pt : String) (c : String) (h : codeUsed db c) :
    codeUsed (verifyPayment db o now u tx pt).1 c := by
  rcases verifyPayment_cases db o now u tx pt with ⟨hc, _⟩ | ⟨hc, _⟩ | ⟨ids, _, hc, _⟩
  · rw [hc]; exact h
  · rw [hc]
    obtain ⟨pay, hmem, htid⟩ := h
    exact ⟨pay, List.mem_append.mpr (Or.inl hmem), htid⟩
  · rw [hc]
    obtain ⟨pay, hmem, htid⟩ := h
    refine ⟨pay, ?_, htid⟩
    rw [upsertPlan_payments]
    exact List.mem_append.mpr (Or.inl hmem)

theorem applyOp_codeUsed (db : Db) (op : Op) (c : String) (h : codeUsed db c) :
    codeUsed (applyOp db op) c := by
  cases op with
  | limitOp o now u =>
    exact codeUsed_of_payments_eq (checkMessageLimit_payments db o now u) h
  | decOp o u =>
    exact codeUsed_of_payments_eq (decrementMessageCount_payments db o u) h
  | verifyOp o now u tx pt => exact verifyPayment_codeUsed db o now u tx pt c h
  | expireOp o now => exact expireOldPlans_codeUsed db o now c h
  | chatOp o now u? m? =>
    exact codeUsed_of_payments_eq (chatHandler_payments db o now u? m?) h

theorem applyOps_codeUsed (db : Db) (ops : List Op) (c : String) (h : codeUsed db c) :
    codeUsed (applyOps db ops) c :=
  foldl_preserve (fun d => codeUsed d c) applyOp
    (fun acc x hx => applyOp_codeUsed acc x c hx) ops db h

/-- A successful verification has stored a payment row carrying the
normalized code. -/
theorem verifyPayment_success_codeUsed (db : Db) (o : VerifyOracle) (now : Nat)
    (u tx pt : String)
    (h : (verifyPayment db o now u tx pt).2.success = true) :
    codeUsed (verifyPayment db o now u tx pt).1 (normalizeCode tx) := by
  rcases verifyPayment_cases db o now u tx pt with ⟨_, hs⟩ | ⟨_, hs⟩ | ⟨ids, _, hc, _⟩
  · rw [h] at hs; exact absurd hs (by simp)
  · rw [h] at hs; exact absurd hs (by simp)
  · rw [hc]
    refine ⟨verifyPayRow now u tx pt, ?_, rfl⟩
    rw [upsertPlan_payments]
    refine List.mem_append.mpr (Or.inr ?_)
    simp [verifyPayRow]

/-- Once the normalized code is stored, every verification attempt with it
is rejected: the duplicate check finds the row, and every earlier exit is
already a rejection. -/
theorem codeUsed_verify_rejected (db : Db) (o : VerifyOracle) (now : Nat)
    (u tx pt : String) (h : codeUsed db (normalizeCode tx)) :
    (verifyPayment db o now u tx pt).2.success = false := by
  obtain ⟨pay, hmem, htid⟩ := h
  have hsome : (db.payments.find? (fun p => p.transaction_id == normalizeCode tx)).isSome :=
    List.find?_isSome.mpr ⟨pay, hmem, by simp [htid]⟩
  obtain ⟨pay0, hfind⟩ := Option.isSome_iff_exists.mp hsome
  unfold verifyPayment
  dsimp only
  rw [hfind]
  repeat' split
  all_goals (first | rfl | simp_all)

/-- Claim C3.  Once `verifyPayment` succeeds for a transaction code, every
later verification with the same normalized code, by any user, for any
tier, after any interleaving of repository operations, returns
`success = false`. -/
theorem payment_code_single_use (db : Db) (o : VerifyOracle) (now : Nat)
    (u tx pt : String)
    (hsucc : (verifyPayment db o now u tx pt).2.success = true)
    (ops : List Op) (o2 : VerifyOracle) (now2 : Nat) (u2 tx2 pt2 : String)
    (hcode : normalizeCode tx2 = normalizeCode tx) :
    (verifyPayment (applyOps (verifyPayment db o now u tx pt).1 ops)
        o2 now2 u2 tx2 pt2).2.success = false := by
  apply codeUsed_verify_rejected
  rw [hcode]
  exact applyOps_codeUsed _ ops _
    (verifyPayment_success_codeUsed db o now u tx pt hsucc)

/-- Witness for C3: alice consumes a pro code (entered in mixed case with
padding); after an expiration sweep, bob resubmitting the same code for the
same tier is rejected. -/
theorem payment_code_single_use_runs :
    (verifyPayment Db.empty noFailVerify 0 "alice" " FQ82LW7RM04BZJN " "pro").2.success = true
    ∧ normalizeCode "fq82lw7rm04bzjn" = normalizeCode " FQ82LW7RM04BZJN "
    ∧ (verifyPayment (applyOps (verifyPayment Db.empty noFailVerify 0 "alice" " FQ82LW7RM04BZJN " "pro").1
          [Op.expireOp noFailExpire 99]) noFailVerify 5 "bob" "fq82lw7rm04bzjn" "pro").2.success = false :=
  ⟨by decide, by decide,
    payment_code_single_use Db.empty noFailVerify 0 "alice" " FQ82LW7RM04BZJN " "pro"
      (by decide) [Op.expireOp noFailExpire 99] noFailVerify 5 "bob" "fq82lw7rm04bzjn" "pro"
      (by decide)⟩

/-! ## The per-segment loop -/

theorem processLoop_length (o : Nat → SegOracle) (i : Nat) (ms : List SegIn) :
    ((processLoop o i ms).1).length = ms.length := by
  induction ms generalizing i with
  | nil => rfl
  | cons m rest ih =>
    simp only [processLoop, List.length_cons]
    rw [ih (i + 1)]

theorem processLoop_get? (o : Nat → SegOracle) (i : Nat) (ms : List SegIn) (k : Nat) :
    ((processLoop o i ms).1).get? k
      = (ms.get? k).map (fun m => processSegment (o (i + k)) m) := by
  induction ms generalizing i k with
  | nil => simp [processLoop]
  | cons m rest ih =>
    cases k with
    | zero => simp [processLoop]
    | succ k =>
      simp only [processLoop, List.get?_cons_succ]
      rw [ih (i + 1) k]
      have : i + 1 + k = i + (k + 1) := by omega
      rw [this]

theorem processLoop_events_shape (o : Nat → SegOracle) (i : Nat) (ms : List SegIn) :
    ∀ e ∈ (processLoop o i ms).2,
      (∃ k, e = Ev.ttsCall k) ∨ (∃ k, e = Ev.segmentDone k) := by
  induction ms generalizing i with
  | nil => intro e he; simp [processLoop] at he
  | cons m rest ih =>
    intro e he
    simp only [processLoop, List.mem_append] at he
    rcases he with he | he
    · unfold segEvents at he
      split at he
      · rcases (by simpa using he : e = Ev.ttsCall i ∨ e = Ev.segmentDone i) with h | h
        · exact Or.inl ⟨i, h⟩
        · exact Or.inr ⟨i, h⟩
      · exact Or.inr ⟨i, by simpa using he⟩
    · exact ih (i + 1) e he

theorem processLoop_segmentDone_mem (o : Nat → SegOracle) (i : Nat) (ms : List SegIn) :
    ∀ j, j < ms.length → Ev.segmentDone (i + j) ∈ (processLoop o i ms).2 := by
  induction ms generalizing i with
  | nil => intro j hj; simp at hj
  | cons m rest ih =>
    intro j hj
    simp only [processLoop, List.mem_append]
    cases j with
    | zero =>
      left
      unfold segEvents
      split <;> simp
    | succ j =>
      right
      have := ih (i + 1) j (by simpa using Nat.lt_of_succ_lt_succ hj)
      have harith : i + 1 + j = i + (j + 1) := by omega
      rw [harith] at this
      exact this

theorem processLoop_not_mem (o : Nat → SegOracle) (i : Nat) (ms : List SegIn)
    (e : Ev) (h1 : ∀ k, e ≠ Ev.ttsCall k) (h2 : ∀ k, e ≠ Ev.segmentDone k) :
    e ∉ (processLoop o i ms).2 := by
  intro hmem
  rcases processLoop_events_shape o i ms e hmem with ⟨k, hk⟩ | ⟨k, hk⟩
  · exact h1 k hk
  · exact h2 k hk

theorem count_eq_zero_of_not_mem {α : Type} [DecidableEq α] {a : α} {l : List α}
    (h : a ∉ l) : l.count a = 0 :=
  List.count_eq_zero.mpr h

/-- Unique decomposition at an element occurring in neither side piece. -/
theorem append_cons_unique {α : Type} (a : α) (p q : List α) (hp : a ∉ p) (hq : a ∉ q) :
    ∀ l1 l2 : List α, l1 ++ a :: l2 = p ++ a :: q → l1 = p ∧ l2 = q := by
  induction p with
  | nil =>
    intro l1 l2 h
    cases l1 with
    | nil =>
      simp only [List.nil_append] at h
      refine ⟨rfl, ?_⟩
      injection h
    | cons x l1 =>
      exfalso
      simp only [List.cons_append, List.nil_append] at h
      have hx : x = a := by injection h
      have htail : l1 ++ a :: l2 = q := by injection h
      apply hq
      rw [← htail]
      exact List.mem_append.mpr (Or.inr (by simp))
  | cons b p ih =>
    intro l1 l2 h
    cases l1 with
    | nil =>
      exfalso
      simp only [List.nil_append, List.cons_append] at h
      have : a = b := by injection h
      exact hp (this ▸ List.mem_cons_self b p)
    | cons x l1 =>
      simp only [List.cons_append] at h
      have hx : x = b := by injection h
      have htail : l1 ++ a :: l2 = p ++ a :: q := by injection h
      have hrec := ih (fun hm => hp (List.mem_cons_of_mem b hm)) l1 l2 htail
      exact ⟨by rw [hx, hrec.1], hrec.2⟩

/-! ## Path equations for the /chat handler -/

/-- Gate denial: the handler answers 429 with the three-plan payload and
the trace holds only the quota check. -/
theorem chatHandler_denied (db : Db) (o : ChatOracle) (now : Nat) (u : String)
    (m? : Option String) (hu : (u == "") = false)
    (hdeny : ((checkMessageLimit db o.limitO now u).2).canSend = false) :
    chatHandler db o now (some u) m?
      = ((checkMessageLimit db o.limitO now u).1,
         .limitReached ((checkMessageLimit db o.limitO now u).2).remaining upgradePlans,
         [Ev.checkLimit]) := by
  simp only [chatHandler, hu, hdeny, Bool.not_true, Bool.false_and,
    Bool.false_eq_true, if_false, Bool.not_false, if_true]

/-- Blank-message path: the gate passed, the message is blank, so the
handler answers the canned reply and only the quota check ran. -/
theorem chatHandler_blank (db : Db) (o : ChatOracle) (now : Nat) (u : String)
    (m? : Option String) (hu : (u == "") = false)
    (hcan : ((checkMessageLimit db o.limitO now u).2).canSend = true)
    (hblank : blankMessage m? = true) :
    chatHandler db o now (some u) m?
      = ((checkMessageLimit db o.limitO now u).1,
         .defaultReply defaultMessages, [Ev.checkLimit]) := by
  simp only [chatHandler, hu, hcan, hblank, Bool.not_true, Bool.false_and,
    Bool.false_eq_true, if_false, Bool.not_false, if_true]

/-- Fully successful tail: keys present, generation and session open
succeeded, the completion update succeeded, and the decrement returned. -/
theorem chatHandler_ok_path (db : Db) (o : ChatOracle) (now : Nat) (u m : String)
    (gv : GenValue) (sid : String) (n : Int)
    (hu : (u == "") = false)
    (hcan : ((checkMessageLimit db o.limitO now u).2).canSend = true)
    (hblank : blankMessage (some m) = false)
    (hkeys : o.hasApiKeys = true)
    (hgen : o.genResult = .ok gv)
    (hsess : o.sessionOpen = .ok sid)
    (hclose : o.closeCompletedFails = false)
    (hdec : (decrementMessageCount (checkMessageLimit db o.limitO now u).1 o.decO u).2
        = .ok n) :
    chatHandler db o now (some u) (some m)
      = ((decrementMessageCount (checkMessageLimit db o.limitO now u).1 o.decO u).1,
         .okReply (processLoop o.seg 0 (unwrapGen gv)).1 n,
         [Ev.checkLimit, Ev.genCall, Ev.openSession]
           ++ (processLoop o.seg 0 (unwrapGen gv)).2
           ++ [Ev.closeCompleted, Ev.decrementCall]
           ++ (if decrementWrites (checkMessageLimit db o.limitO now u).1 o.decO u
               then [Ev.decApplied] else [])) := by
  simp only [chatHandler, hu, hcan, hblank, hkeys, hgen, hsess, hclose, hdec,
    Bool.not_true, Bool.false_and, Bool.false_eq_true, if_false, Bool.not_false,
    if_true, List.append_assoc, List.cons_append, List.nil_append]

/-! ## Claims about the HTTP surface -/

/-- Claim C7.  When the quota gate denies, the handler answers 429 with
exactly the three upgrade plans, and no generation, synthesis or session
call is made: the trace holds only the quota check. -/
theorem quota_denial_shortcircuit (db : Db) (o : ChatOracle) (now : Nat) (u : String)
    (m? : Option String) (hu : (u == "") = false)
    (hdeny : ((checkMessageLimit db o.limitO now u).2).canSend = false) :
    (chatHandler db o now (some u) m?).2.1
      = .limitReached ((checkMessageLimit db o.limitO now u).2).remaining upgradePlans
    ∧ upgradePlans.length = 3
    ∧ Ev.genCall ∉ (chatHandler db o now (some u) m?).2.2
    ∧ Ev.openSession ∉ (chatHandler db o now (some u) m?).2.2
    ∧ (∀ i, Ev.ttsCall i ∉ (chatHandler db o now (some u) m?).2.2) := by
  rw [chatHandler_denied db o now u m? hu hdeny]
  refine ⟨rfl, rfl, ?_, ?_, ?_⟩ <;> simp

/-- Witness for C7: a free user with zero messages left on the same
calendar day is denied. -/
theorem quota_denial_shortcircuit_runs :
    (("alice" == "") = false)
    ∧ (((checkMessageLimit ⟨[⟨"alice", "free", 0, 0, none⟩], []⟩ noFailLimit 0 "alice").2).canSend = false)
    ∧ (chatHandler ⟨[⟨"alice", "free", 0, 0, none⟩], []⟩
        { limitO := noFailLimit,
          hasApiKeys := true, genResult := .ok (.bare []), sessionOpen := .ok "s",
          seg := fun _ => ⟨true, true, true, true, true, true, true, true, "A", "L"⟩,
          closeCompletedFails := false, decO := noFailDec } 0 (some "alice") (some "hi")).2.1
      = .limitReached ((checkMessageLimit ⟨[⟨"alice", "free", 0, 0, none⟩], []⟩ noFailLimit 0 "alice").2).remaining upgradePlans
    ∧ Ev.genCall ∉ (chatHandler ⟨[⟨"alice", "free", 0, 0, none⟩], []⟩
        { limitO := noFailLimit,
          hasApiKeys := true, genResult := .ok (.bare []), sessionOpen := .ok "s",
          seg := fun _ => ⟨true, true, true, true, true, true, true, true, "A", "L"⟩,
          closeCompletedFails := false, decO := noFailDec } 0 (some "alice") (some "hi")).2.2
    ∧ Ev.ttsCall 0 ∉ (chatHandler ⟨[⟨"alice", "free", 0, 0, none⟩], []⟩
        { limitO := noFailLimit,
          hasApiKeys := true, genResult := .ok (.bare []), sessionOpen := .ok "s",
          seg := fun _ => ⟨true, true, true, true, true, true, true, true, "A", "L"⟩,
          closeCompletedFails := false, decO := noFailDec } 0 (some "alice") (some "hi")).2.2 :=
  ⟨rfl, by decide,
    (quota_denial_shortcircuit _ _ 0 "alice" (some "hi") rfl (by decide)).1,
    (quota_denial_shortcircuit _ _ 0 "alice" (some "hi") rfl (by decide)).2.2.1,
    (quota_denial_shortcircuit _ _ 0 "alice" (some "hi") rfl (by decide)).2.2.2.2 0⟩

/-- Claim C8.  When the gate passes and the message is blank, the handler
answers the fixed two-segment canned reply (no audio, no lip-sync per
segment), no generation or synthesis call is made, and the quota is not
decremented: the store stays the gate output. -/
theorem blank_message_canned (db : Db) (o : ChatOracle) (now : Nat) (u : String)
    (m? : Option String) (hu : (u == "") = false)
    (hcan : ((checkMessageLimit db o.limitO now u).2).canSend = true)
    (hblank : blankMessage m? = true) :
    (chatHandler db o now (some u) m?).2.1 = .defaultReply defaultMessages
    ∧ defaultMessages.length = 2
    ∧ (∀ s ∈ defaultMessages, s.audio = none ∧ s.lipsync = none)
    ∧ (chatHandler db o now (some u) m?).1 = (checkMessageLimit db o.limitO now u).1
    ∧ Ev.genCall ∉ (chatHandler db o now (some u) m?).2.2
    ∧ (∀ i, Ev.ttsCall i ∉ (chatHandler db o now (some u) m?).2.2)
    ∧ Ev.decrementCall ∉ (chatHandler db o now (some u) m?).2.2
    ∧ Ev.decApplied ∉ (chatHandler db o now (some u) m?).2.2 := by
  rw [chatHandler_blank db o now u m? hu hcan hblank]
  refine ⟨rfl, rfl, ?_, rfl, ?_, ?_, ?_, ?_⟩ <;> simp [defaultMessages]

/-- Witness for C8: a pro user with quota sends a whitespace message. -/
theorem blank_message_canned_runs :
    (("alice" == "") = false)
    ∧ (((checkMessageLimit ⟨[⟨"alice", "pro", 3, 0, none⟩], []⟩ noFailLimit 0 "alice").2).canSend = true)
    ∧ blankMessage (some "   ") = true
    ∧ (chatHandler ⟨[⟨"alice", "pro", 3, 0, none⟩], []⟩
        { limitO := noFailLimit,
          hasApiKeys := true, genResult := .ok (.bare []), sessionOpen := .ok "s",
          seg := fun _ => ⟨true, true, true, true, true, true, true, true, "A", "L"⟩,
          closeCompletedFails := false, decO := noFailDec } 0 (some "alice") (some "   ")).2.1
      = .defaultReply defaultMessages
    ∧ Ev.decrementCall ∉ (chatHandler ⟨[⟨"alice", "pro", 3, 0, none⟩], []⟩
        { limitO := noFailLimit,
          hasApiKeys := true, genResult := .ok (.bare []), sessionOpen := .ok "s",
          seg := fun _ => ⟨true, true, true, true, true, true, true, true, "A", "L"⟩,
          closeCompletedFails := false, decO := noFailDec } 0 (some "alice") (some "   ")).2.2 :=
  ⟨rfl, by decide, by decide,
    (blank_message_canned _ _ 0 "alice" (some "   ") rfl (by decide) (by decide)).1,
    (blank_message_canned _ _ 0 "alice" (some "   ") rfl (by decide) (by decide)).2.2.2.2.2.2.1⟩

/-- Claim C9 (code bug in the source).  A /chat request without a userId is
answered 500, not 400: `path.join(baseAudioDir, userId)` at source line 418
throws a TypeError on a missing userId before the 400 check at line 428 can
run, and the catch-all at line 568 answers 500.  The 400 branch is
unreachable for an absent userId. -/
theorem missing_userid_answers_500 (db : Db) (o : ChatOracle) (now : Nat)
    (m? : Option String) :
    (chatHandler db o now none m?).2.1 = .serverError pathTypeError
    ∧ (chatHandler db o now none m?).2.1 ≠ .badRequest := by
  refine ⟨rfl, ?_⟩
  intro h
  exact ChatResponse.noConfusion h

/-- Shape of every `verifyPayment` result: success with no error string, or
failure carrying one. -/
theorem verifyPayment_result_shape (db : Db) (o : VerifyOracle) (now : Nat)
    (u tx pt : String) :
    ((verifyPayment db o now u tx pt).2.success = true
      ∧ (verifyPayment db o now u tx pt).2.error = none)
    ∨ ((verifyPayment db o now u tx pt).2.success = false
      ∧ ∃ e, (verifyPayment db o now u tx pt).2.error = some e) := by
  unfold verifyPayment
  cases hids : planTransactionIds pt with
  | none => right; exact ⟨rfl, _, rfl⟩
  | some ids =>
    simp only []
    repeat' split
    all_goals first
      | (left; exact ⟨rfl, rfl⟩)
      | (right; exact ⟨rfl, _, rfl⟩)

/-- Claim C10.  `verifyPayment` never throws: it is total, and every
failure carries an error string; consequently the /verify-payment route
answers 200 (success), 400 (missing field or rejection with an error
string), and never the 500 of its catch-all. -/
theorem verify_route_never_500 (db : Db) (o : VerifyOracle) (now : Nat)
    (userId? transactionId? planType? : Option String) :
    (verifyPaymentRoute db o now userId? transactionId? planType?).2 ≠ .serverErr
    ∧ ((verifyPaymentRoute db o now userId? transactionId? planType?).2 = .missingFields
       ∨ (verifyPaymentRoute db o now userId? transactionId? planType?).2 = .okResp
       ∨ ∃ e, (verifyPaymentRoute db o now userId? transactionId? planType?).2
           = .badResp (some e)) := by
  unfold verifyPaymentRoute
  cases userId? with
  | none => exact ⟨fun h => PayResponse.noConfusion h, Or.inl rfl⟩
  | some u =>
    cases transactionId? with
    | none => exact ⟨fun h => PayResponse.noConfusion h, Or.inl rfl⟩
    | some t =>
      cases planType? with
      | none => exact ⟨fun h => PayResponse.noConfusion h, Or.inl rfl⟩
      | some p =>
        dsimp only
        by_cases hempty : (u == "" || t == "" || p == "") = true
        · rw [if_pos hempty]
          exact ⟨fun h => PayResponse.noConfusion h, Or.inl rfl⟩
        · rw [if_neg hempty]
          rcases verifyPayment_result_shape db o now u t p with ⟨hs, _⟩ | ⟨hs, e, he⟩
          · rw [hs]
            exact ⟨fun h => PayResponse.noConfusion h, Or.inr (Or.inl rfl)⟩
          · rw [hs, he]
            exact ⟨fun h => PayResponse.noConfusion h, Or.inr (Or.inr ⟨e, rfl⟩)⟩

/-! ## Segment failure isolation -/

/-- When the gate passes with a healthy store, the post-gate store holds a
row for the user with a positive remaining count (created, reset, or
already positive). -/
theorem canSend_pos {db : Db} {now : Nat} {u : String}
    (h : ((checkMessageLimit db noFailLimit now u).2).canSend = true) :
    ∃ p, findPlan (checkMessageLimit db noFailLimit now u).1 u = some p
      ∧ 0 < p.messages_remaining := by
  unfold checkMessageLimit checkMessageLimitTry noFailLimit at h ⊢
  simp only [Bool.false_eq_true, if_false] at h ⊢
  cases hf : findPlan db u with
  | none =>
    simp only [hf] at h ⊢
    refine ⟨⟨u, "free", 1, now, none⟩, ?_, by norm_num⟩
    rw [findPlan_append_none _ hf]
    simp [List.find?]
  | some plan =>
    simp only [hf] at h ⊢
    by_cases hday : now / msPerDay ≠ plan.last_reset_date / msPerDay
    · rw [if_pos hday] at h ⊢
      refine ⟨{ plan with
          messages_remaining := messagesAllocation plan.plan_type,
          last_reset_date := now }, ?_, ?_⟩
      · exact findPlan_updatePlanRow_self hf _ (fun q _ => rfl)
      · show 0 < messagesAllocation plan.plan_type
        have := one_le_messagesAllocation plan.plan_type
        omega
    · rw [if_neg hday] at h ⊢
      refine ⟨plan, hf, ?_⟩
      have : decide (0 < plan.messages_remaining) = true := h
      exact of_decide_eq_true this

theorem decrementMessageCount_ok {db : Db} {u : String} {p : UserPlan}
    (hp : findPlan db u = some p) (hpos : 0 < p.messages_remaining) :
    (decrementMessageCount db noFailDec u).2 = .ok (p.messages_remaining - 1) := by
  unfold decrementMessageCount noFailDec
  dsimp only
  rw [hp]
  dsimp only
  rw [if_pos hpos]
  rfl

theorem decrementWrites_true {db : Db} {u : String} {p : UserPlan}
    (hp : findPlan db u = some p) (hpos : 0 < p.messages_remaining) :
    decrementWrites db noFailDec u = true := by
  unfold decrementWrites noFailDec
  dsimp only
  rw [hp]
  simp [hpos]

/-- Claim C1.  On a run that reaches the segment loop with N generated
segments and exactly one failing segment (with a healthy ledger and
session store), the reply still carries all N segments in order: the
failed one keeps its text with audio and lipsync null and the sad /
Terrified tags, every other segment is fully populated with its original
tags, and the quota decrement runs — and writes — exactly once. -/
theorem segment_failure_isolation (db : Db) (o : ChatOracle) (now : Nat)
    (u m : String) (gv : GenValue) (sid : String) (j : Nat)
    (hu : (u == "") = false)
    (hlim : o.limitO = noFailLimit) (hdecO : o.decO = noFailDec)
    (hcan : ((checkMessageLimit db noFailLimit now u).2).canSend = true)
    (hblank : blankMessage (some m) = false)
    (hkeys : o.hasApiKeys = true)
    (hgen : o.genResult = .ok gv)
    (hsess : o.sessionOpen = .ok sid)
    (hclose : o.closeCompletedFails = false)
    (hj : j < (unwrapGen gv).length)
    (hfail : segOk (o.seg j) = false)
    (hothers : ∀ i, i < (unwrapGen gv).length → i ≠ j → segOk (o.seg i) = true) :
    ∃ outs n,
      (chatHandler db o now (some u) (some m)).2.1 = .okReply outs n
      ∧ outs.length = (unwrapGen gv).length
      ∧ (∀ mj, (unwrapGen gv).get? j = some mj →
          outs.get? j = some ⟨mj.text, "sad", "Terrified", none, none⟩)
      ∧ (∀ i mi, i < (unwrapGen gv).length → i ≠ j →
          (unwrapGen gv).get? i = some mi →
          outs.get? i = some ⟨mi.text, mi.facialExpression, mi.animation,
            some (o.seg i).audioData, some (o.seg i).lipsyncData⟩)
      ∧ ((chatHandler db o now (some u) (some m)).2.2).count Ev.decrementCall = 1
      ∧ ((chatHandler db o now (some u) (some m)).2.2).count Ev.decApplied = 1 := by
  have hcan2 : ((checkMessageLimit db o.limitO now u).2).canSend = true := by
    rw [hlim]; exact hcan
  obtain ⟨p, hp, hpos⟩ := canSend_pos hcan
  have hp2 : findPlan (checkMessageLimit db o.limitO now u).1 u = some p := by
    rw [hlim]; exact hp
  have hdec : (decrementMessageCount (checkMessageLimit db o.limitO now u).1 o.decO u).2
      = .ok (p.messages_remaining - 1) := by
    rw [hdecO]
    exact decrementMessageCount_ok hp2 hpos
  have hw : decrementWrites (checkMessageLimit db o.limitO now u).1 o.decO u = true := by
    rw [hdecO]
    exact decrementWrites_true hp2 hpos
  have heq := chatHandler_ok_path db o now u m gv sid (p.messages_remaining - 1)
    hu hcan2 hblank hkeys hgen hsess hclose hdec
  have hnot1 : Ev.decrementCall ∉ (processLoop o.seg 0 (unwrapGen gv)).2 :=
    processLoop_not_mem _ _ _ _ (fun k h => Ev.noConfusion h) (fun k h => Ev.noConfusion h)
  have hnot2 : Ev.decApplied ∉ (processLoop o.seg 0 (unwrapGen gv)).2 :=
    processLoop_not_mem _ _ _ _ (fun k h => Ev.noConfusion h) (fun k h => Ev.noConfusion h)
  refine ⟨(processLoop o.seg 0 (unwrapGen gv)).1, p.messages_remaining - 1,
    ?_, processLoop_length o.seg 0 (unwrapGen gv), ?_, ?_, ?_, ?_⟩
  · rw [heq]
  · intro mj hmj
    rw [processLoop_get? o.seg 0 (unwrapGen gv) j, hmj]
    simp only [Option.map_some', Nat.zero_add]
    unfold processSegment
    rw [hfail]
    rfl
  · intro i mi hi hij hmi
    rw [processLoop_get? o.seg 0 (unwrapGen gv) i, hmi]
    simp only [Option.map_some', Nat.zero_add]
    unfold processSegment
    rw [hothers i hi hij]
    rfl
  · rw [heq, if_pos hw]
    simp [List.count_append, count_eq_zero_of_not_mem hnot1, List.count_cons]
  · rw [heq, if_pos hw]
    simp [List.count_append, count_eq_zero_of_not_mem hnot2, List.count_cons]

/-- Concrete fixtures for the segment-isolation witness: segment 0 fails at
the ElevenLabs call, segment 1 succeeds fully. -/
def wSegGood : SegOracle := ⟨true, true, true, true, true, true, true, true, "A", "L"⟩

def wSegBad : SegOracle := ⟨true, false, true, true, true, true, true, true, "A", "L"⟩

def wGen : GenValue := .bare [⟨"hi", "smile", "Talk1"⟩, ⟨"yo", "funnyFace", "Laughing"⟩]

def wChatOracle : ChatOracle :=
  { limitO := noFailLimit,
    hasApiKeys := true, genResult := .ok wGen, sessionOpen := .ok "s",
    seg := fun i => if i = 0 then wSegBad else wSegGood,
    closeCompletedFails := false, decO := noFailDec }

def wDb : Db := ⟨[⟨"alice", "pro", 3, 0, none⟩], []⟩

/-- Witness for C1: two generated segments, the first failing at synthesis;
the reply keeps both segments and the decrement runs once. -/
theorem segment_failure_isolation_runs :
    segOk (wChatOracle.seg 0) = false
    ∧ (∀ i, i < (unwrapGen wGen).length → i ≠ 0 → segOk (wChatOracle.seg i) = true)
    ∧ (((checkMessageLimit wDb noFailLimit 0 "alice").2).canSend = true)
    ∧ (∃ outs n,
        (chatHandler wDb wChatOracle 0 (some "alice") (some "hello")).2.1 = .okReply outs n
        ∧ outs.length = (unwrapGen wGen).length
        ∧ (∀ mj, (unwrapGen wGen).get? 0 = some mj →
            outs.get? 0 = some ⟨mj.text, "sad", "Terrified", none, none⟩)
        ∧ (∀ i mi, i < (unwrapGen wGen).length → i ≠ 0 →
            (unwrapGen wGen).get? i = some mi →
            outs.get? i = some ⟨mi.text, mi.facialExpression, mi.animation,
              some (wChatOracle.seg i).audioData, some (wChatOracle.seg i).lipsyncData⟩)
        ∧ ((chatHandler wDb wChatOracle 0 (some "alice") (some "hello")).2.2).count Ev.decrementCall = 1
        ∧ ((chatHandler wDb wChatOracle 0 (some "alice") (some "hello")).2.2).count Ev.decApplied = 1) :=
  ⟨by decide, by decide, by decide,
    segment_failure_isolation wDb wChatOracle 0 "alice" "hello" wGen "s" 0
      rfl rfl rfl (by decide) (by decide) rfl rfl rfl rfl
      (by decide) (by decide) (by decide)⟩

/-! ## Full path enumeration of the /chat handler -/

theorem decrementMessageCount_error_db {db : Db} {o : DecOracle} {u : String} {e : String}
    (h : (decrementMessageCount db o u).2 = .error e) :
    (decrementMessageCount db o u).1 = db := by
  unfold decrementMessageCount at h ⊢
  cases hs : o.selectFails with
  | true => simp [hs]
  | false =>
    simp only [hs, Bool.false_eq_true, if_false] at h ⊢
    cases hf : findPlan db u with
    | none => simp [hf]
    | some plan =>
      simp only [hf] at h ⊢
      by_cases hpos : 0 < plan.messages_remaining
      · rw [if_pos hpos] at h ⊢
        cases hupd : o.updateFails with
        | true => simp [hupd]
        | false =>
          rw [hupd] at h
          simp at h
      · rw [if_neg hpos] at h
        simp at h

/-- Exhaustive description of one handler run: the pre-gate exits with an
empty trace; the gate-only exits; the close-completed failure; the
decrement failure; and full success. -/
theorem chatHandler_shape (db : Db) (o : ChatOracle) (now : Nat)
    (u? m? : Option String) :
    ((chatHandler db o now u? m?).2.2 = [] ∧ (chatHandler db o now u? m?).1 = db)
    ∨ (∃ uu, u? = some uu
        ∧ (chatHandler db o now u? m?).1 = (checkMessageLimit db o.limitO now uu).1
        ∧ ((chatHandler db o now u? m?).2.2 = [Ev.checkLimit]
           ∨ (chatHandler db o now u? m?).2.2 = [Ev.checkLimit, Ev.genCall]
           ∨ (chatHandler db o now u? m?).2.2 = [Ev.checkLimit, Ev.genCall, Ev.openSession]))
    ∨ (∃ uu gv, u? = some uu ∧ o.genResult = .ok gv
        ∧ o.closeCompletedFails = true
        ∧ (chatHandler db o now u? m?).1 = (checkMessageLimit db o.limitO now uu).1
        ∧ (chatHandler db o now u? m?).2.2
            = [Ev.checkLimit, Ev.genCall, Ev.openSession]
              ++ (processLoop o.seg 0 (unwrapGen gv)).2 ++ [Ev.closeFailed])
    ∨ (∃ uu gv sid e, u? = some uu ∧ o.genResult = .ok gv ∧ o.sessionOpen = .ok sid
        ∧ o.closeCompletedFails = false
        ∧ (decrementMessageCount (checkMessageLimit db o.limitO now uu).1 o.decO uu).2
            = .error e
        ∧ (chatHandler db o now u? m?).1
            = (decrementMessageCount (checkMessageLimit db o.limitO now uu).1 o.decO uu).1
        ∧ (chatHandler db o now u? m?).2.1 = .serverError e
        ∧ (chatHandler db o now u? m?).2.2
            = [Ev.checkLimit, Ev.genCall, Ev.openSession]
              ++ (processLoop o.seg 0 (unwrapGen gv)).2
              ++ [Ev.closeCompleted, Ev.decrementCall, Ev.closeFailed])
    ∨ (∃ uu gv sid n, u? = some uu ∧ o.genResult = .ok gv ∧ o.sessionOpen = .ok sid
        ∧ o.closeCompletedFails = false
        ∧ (decrementMessageCount (checkMessageLimit db o.limitO now uu).1 o.decO uu).2
            = .ok n
        ∧ (chatHandler db o now u? m?).1
            = (decrementMessageCount (checkMessageLimit db o.limitO now uu).1 o.decO uu).1
        ∧ (chatHandler db o now u? m?).2.1
            = .okReply (processLoop o.seg 0 (unwrapGen gv)).1 n
        ∧ (chatHandler db o now u? m?).2.2
            = [Ev.checkLimit, Ev.genCall, Ev.openSession]
              ++ (processLoop o.seg 0 (unwrapGen gv)).2
              ++ [Ev.closeCompleted, Ev.decrementCall]
              ++ (if decrementWrites (checkMessageLimit db o.limitO now uu).1 o.decO uu
                  then [Ev.decApplied] else [])) := by
  cases u? with
  | none => exact Or.inl ⟨rfl, rfl⟩
  | some u =>
    cases hue : (u == "") with
      | true =>
        refine Or.inl ⟨?_, ?_⟩ <;>
          simp only [chatHandler, hue, Bool.false_eq_true, if_false, if_true]
      | false =>
        cases hcs : ((checkMessageLimit db o.limitO now u).2).canSend with
        | false =>
          refine Or.inr (Or.inl ⟨u, rfl, ?_, Or.inl ?_⟩) <;>
            simp only [chatHandler, hue, hcs, Bool.false_eq_true, if_false,
              Bool.not_false, if_true]
        | true =>
          cases hbm : blankMessage m? with
          | true =>
            refine Or.inr (Or.inl ⟨u, rfl, ?_, Or.inl ?_⟩) <;>
              simp only [chatHandler, hue, hcs, hbm, Bool.false_eq_true, if_false,
                Bool.not_true, if_true]
          | false =>
            cases hk : o.hasApiKeys with
            | false =>
              refine Or.inr (Or.inl ⟨u, rfl, ?_, Or.inl ?_⟩) <;>
                simp only [chatHandler, hue, hcs, hbm, hk, Bool.false_eq_true,
                  if_false, Bool.not_true, Bool.not_false, if_true]
            | true =>
              cases hgen : o.genResult with
              | error e =>
                refine Or.inr (Or.inl ⟨u, rfl, ?_, Or.inr (Or.inl ?_)⟩) <;>
                  simp only [chatHandler, hue, hcs, hbm, hk, hgen,
                    Bool.false_eq_true, if_false, Bool.not_true, Bool.not_false, if_true]
              | ok gv =>
                cases hsess : o.sessionOpen with
                | error e =>
                  refine Or.inr (Or.inl ⟨u, rfl, ?_, Or.inr (Or.inr ?_)⟩) <;>
                    simp only [chatHandler, hue, hcs, hbm, hk, hgen, hsess,
                      Bool.false_eq_true, if_false, Bool.not_true, Bool.not_false, if_true]
                | ok sid =>
                  cases hcf : o.closeCompletedFails with
                  | true =>
                    refine Or.inr (Or.inr (Or.inl ⟨u, gv, rfl, rfl, rfl, ?_, ?_⟩)) <;>
                      simp only [chatHandler, hue, hcs, hbm, hk, hgen, hsess, hcf,
                        Bool.false_eq_true, if_false, Bool.not_true, Bool.not_false, if_true]
                  | false =>
                    cases hdec : (decrementMessageCount
                        (checkMessageLimit db o.limitO now u).1 o.decO u).2 with
                    | error e =>
                      refine Or.inr (Or.inr (Or.inr (Or.inl
                        ⟨u, gv, sid, e, rfl, rfl, rfl, rfl, hdec, ?_, ?_, ?_⟩))) <;>
                        simp only [chatHandler, hue, hcs, hbm, hk, hgen, hsess, hcf,
                          hdec, Bool.false_eq_true, if_false, Bool.not_true,
                          Bool.not_false, if_true]
                    | ok n =>
                      refine Or.inr (Or.inr (Or.inr (Or.inr
                        ⟨u, gv, sid, n, rfl, rfl, rfl, rfl, hdec, ?_, ?_, ?_⟩))) <;>
                        simp only [chatHandler, hue, hcs, hbm, hk, hgen, hsess, hcf,
                          hdec, Bool.false_eq_true, if_false, Bool.not_true,
                          Bool.not_false, if_true]

theorem not_mem_append3 {α : Type} {e : α} {A B C : List α}
    (hA : e ∉ A) (hB : e ∉ B) (hC : e ∉ C) : e ∉ A ++ B ++ C := by
  intro hm
  simp only [List.mem_append] at hm
  tauto

/-- Claim C2.  In every /chat run the decrement is invoked at most once;
when it is invoked, the session completion and every generated segment
attempt precede it in the trace; a generation failure, session-open
failure or completion-update failure means it is never invoked; and every
500 outcome has no applied decrement — the final store is the input store
or the gate output (whose check never decrements). -/
theorem decrement_at_most_once_and_late (db : Db) (o : ChatOracle) (now : Nat)
    (userId? message? : Option String) :
    ((chatHandler db o now userId? message?).2.2).count Ev.decrementCall ≤ 1
    ∧ (∀ l1 l2, (chatHandler db o now userId? message?).2.2
          = l1 ++ Ev.decrementCall :: l2 →
        Ev.closeCompleted ∈ l1 ∧ ∀ j, j < generatedCount o → Ev.segmentDone j ∈ l1)
    ∧ ((o.genResult.isOk = false ∨ o.sessionOpen.isOk = false
          ∨ o.closeCompletedFails = true) →
        Ev.decrementCall ∉ (chatHandler db o now userId? message?).2.2)
    ∧ (∀ d, (chatHandler db o now userId? message?).2.1 = .serverError d →
        Ev.decApplied ∉ (chatHandler db o now userId? message?).2.2
        ∧ ((chatHandler db o now userId? message?).1 = db
           ∨ ∃ uu, userId? = some uu ∧ (chatHandler db o now userId? message?).1
               = (checkMessageLimit db o.limitO now uu).1)) := by
  have hnm1 : ∀ gv : GenValue, Ev.decrementCall ∉ (processLoop o.seg 0 (unwrapGen gv)).2 :=
    fun gv => processLoop_not_mem _ _ _ _
      (fun k h => Ev.noConfusion h) (fun k h => Ev.noConfusion h)
  have hnm2 : ∀ gv : GenValue, Ev.decApplied ∉ (processLoop o.seg 0 (unwrapGen gv)).2 :=
    fun gv => processLoop_not_mem _ _ _ _
      (fun k h => Ev.noConfusion h) (fun k h => Ev.noConfusion h)
  rcases chatHandler_shape db o now userId? message? with
    ⟨htr, hdb⟩ |
    ⟨uu, huu, hdb, hX⟩ |
    ⟨uu, gv, huu, hgen, hcf, hdb, htr⟩ |
    ⟨uu, gv, sid, e, huu, hgen, hsess, hcf, hdec, hdb, hresp, htr⟩ |
    ⟨uu, gv, sid, n, huu, hgen, hsess, hcf, hdec, hdb, hresp, htr⟩
  · -- pre-gate exit: empty trace, untouched store
    refine ⟨?_, ?_, ?_, ?_⟩
    · rw [htr]; decide
    · intro l1 l2 hp
      rw [htr] at hp
      exact absurd hp (by simp)
    · intro _
      rw [htr]
      simp
    · intro d _
      exact ⟨by rw [htr]; simp, Or.inl hdb⟩
  · -- gate-only exits
    have hno : Ev.decrementCall ∉ (chatHandler db o now userId? message?).2.2 := by
      rcases hX with h | h | h <;> (rw [h]; decide)
    have hda : Ev.decApplied ∉ (chatHandler db o now userId? message?).2.2 := by
      rcases hX with h | h | h <;> (rw [h]; decide)
    refine ⟨?_, ?_, fun _ => hno, ?_⟩
    · rw [count_eq_zero_of_not_mem hno]
      exact Nat.zero_le 1
    · intro l1 l2 hp
      have hmem : Ev.decrementCall ∈ l1 ++ Ev.decrementCall :: l2 :=
        List.mem_append.mpr (Or.inr (List.mem_cons_self _ _))
      rw [← hp] at hmem
      exact absurd hmem hno
    · intro d _
      exact ⟨hda, Or.inr ⟨uu, huu, hdb⟩⟩
  · -- completion-update failure: loop ran, no decrement call
    have hno : Ev.decrementCall ∉ (chatHandler db o now userId? message?).2.2 := by
      rw [htr]
      exact not_mem_append3 (by decide) (hnm1 gv) (by decide)
    refine ⟨?_, ?_, fun _ => hno, ?_⟩
    · rw [count_eq_zero_of_not_mem hno]
      exact Nat.zero_le 1
    · intro l1 l2 hp
      have hmem : Ev.decrementCall ∈ l1 ++ Ev.decrementCall :: l2 :=
        List.mem_append.mpr (Or.inr (List.mem_cons_self _ _))
      rw [← hp] at hmem
      exact absurd hmem hno
    · intro d _
      refine ⟨?_, Or.inr ⟨uu, huu, hdb⟩⟩
      rw [htr]
      exact not_mem_append3 (by decide) (hnm2 gv) (by decide)
  · -- decrement raised: one invocation, after completion and all segments
    refine ⟨?_, ?_, ?_, ?_⟩
    · rw [htr]
      simp only [List.count_append, count_eq_zero_of_not_mem (hnm1 gv)]
      decide
    · intro l1 l2 hp
      have htr2 : (chatHandler db o now userId? message?).2.2
          = ([Ev.checkLimit, Ev.genCall, Ev.openSession]
              ++ (processLoop o.seg 0 (unwrapGen gv)).2 ++ [Ev.closeCompleted])
            ++ Ev.decrementCall :: [Ev.closeFailed] := by
        rw [htr]
        simp [List.append_assoc]
      have hPn : Ev.decrementCall ∉ ([Ev.checkLimit, Ev.genCall, Ev.openSession]
          ++ (processLoop o.seg 0 (unwrapGen gv)).2 ++ [Ev.closeCompleted]) :=
        not_mem_append3 (by decide) (hnm1 gv) (by decide)
      have hQn : Ev.decrementCall ∉ [Ev.closeFailed] := by decide
      have hl1 := (append_cons_unique Ev.decrementCall _ _ hPn hQn l1 l2
        (hp.symm.trans htr2)).1
      constructor
      · rw [hl1]
        simp
      · intro j hj
        have hj2 : j < (unwrapGen gv).length := by
          simpa [generatedCount, hgen] using hj
        have hsd := processLoop_segmentDone_mem o.seg 0 (unwrapGen gv) j hj2
        rw [Nat.zero_add] at hsd
        rw [hl1]
        simp only [List.mem_append]
        tauto
    · intro hfails
      exfalso
      rcases hfails with hf | hf | hf
      · rw [hgen] at hf
        exact absurd hf (by simp [Except.isOk, Except.toBool])
      · rw [hsess] at hf
        exact absurd hf (by simp [Except.isOk, Except.toBool])
      · exact absurd hf (by simp [hcf])
    · intro d _
      refine ⟨?_, Or.inr ⟨uu, huu, ?_⟩⟩
      · rw [htr]
        exact not_mem_append3 (by decide) (hnm2 gv) (by decide)
      · exact hdb.trans (decrementMessageCount_error_db hdec)
  · -- full success: one invocation, after completion and all segments
    refine ⟨?_, ?_, ?_, ?_⟩
    · cases hw : decrementWrites (checkMessageLimit db o.limitO now uu).1 o.decO uu with
      | true =>
        rw [htr, if_pos hw]
        simp only [List.count_append, count_eq_zero_of_not_mem (hnm1 gv)]
        decide
      | false =>
        rw [htr, if_neg (by simp [hw])]
        simp only [List.count_append, count_eq_zero_of_not_mem (hnm1 gv)]
        decide
    · intro l1 l2 hp
      have hPn : Ev.decrementCall ∉ ([Ev.checkLimit, Ev.genCall, Ev.openSession]
          ++ (processLoop o.seg 0 (unwrapGen gv)).2 ++ [Ev.closeCompleted]) :=
        not_mem_append3 (by decide) (hnm1 gv) (by decide)
      have hl1 : l1 = [Ev.checkLimit, Ev.genCall, Ev.openSession]
          ++ (processLoop o.seg 0 (unwrapGen gv)).2 ++ [Ev.closeCompleted] := by
        cases hw : decrementWrites (checkMessageLimit db o.limitO now uu).1 o.decO uu with
        | true =>
          have htr2 : (chatHandler db o now userId? message?).2.2
              = ([Ev.checkLimit, Ev.genCall, Ev.openSession]
                  ++ (processLoop o.seg 0 (unwrapGen gv)).2 ++ [Ev.closeCompleted])
                ++ Ev.decrementCall :: [Ev.decApplied] := by
            rw [htr, if_pos hw]
            simp [List.append_assoc]
          exact (append_cons_unique Ev.decrementCall _ _ hPn (by decide) l1 l2
            (hp.symm.trans htr2)).1
        | false =>
          have htr2 : (chatHandler db o now userId? message?).2.2
              = ([Ev.checkLimit, Ev.genCall, Ev.openSession]
                  ++ (processLoop o.seg 0 (unwrapGen gv)).2 ++ [Ev.closeCompleted])
                ++ Ev.decrementCall :: [] := by
            rw [htr, if_neg (by simp [hw])]
            simp [List.append_assoc]
          exact (append_cons_unique Ev.decrementCall _ _ hPn (by decide) l1 l2
            (hp.symm.trans htr2)).1
      constructor
      · rw [hl1]
        simp
      · intro j hj
        have hj2 : j < (unwrapGen gv).length := by
          simpa [generatedCount, hgen] using hj
        have hsd := processLoop_segmentDone_mem o.seg 0 (unwrapGen gv) j hj2
        rw [Nat.zero_add] at hsd
        rw [hl1]
        simp only [List.mem_append]
        tauto
    · intro hfails
      exfalso
      rcases hfails with hf | hf | hf
      · rw [hgen] at hf
        exact absurd hf (by simp [Except.isOk, Except.toBool])
      · rw [hsess] at hf
        exact absurd hf (by simp [Except.isOk, Except.toBool])
      · exact absurd hf (by simp [hcf])
    · intro d hd
      rw [hresp] at hd
      exact ChatResponse.noConfusion hd

/-- Witness for C2 on a concrete full run with one failed segment: the
decrement is counted once, and decomposing the trace at the decrement call
shows the completion update and both segment attempts before it. -/
theorem decrement_at_most_once_and_late_runs :
    ((chatHandler wDb wChatOracle 0 (some "alice") (some "hello")).2.2).count Ev.decrementCall ≤ 1
    ∧ Ev.closeCompleted ∈ ([Ev.checkLimit, Ev.genCall, Ev.openSession, Ev.ttsCall 0,
        Ev.segmentDone 0, Ev.ttsCall 1, Ev.segmentDone 1, Ev.closeCompleted] : List Ev)
    ∧ Ev.segmentDone 0 ∈ ([Ev.checkLimit, Ev.genCall, Ev.openSession, Ev.ttsCall 0,
        Ev.segmentDone 0, Ev.ttsCall 1, Ev.segmentDone 1, Ev.closeCompleted] : List Ev)
    ∧ Ev.segmentDone 1 ∈ ([Ev.checkLimit, Ev.genCall, Ev.openSession, Ev.ttsCall 0,
        Ev.segmentDone 0, Ev.ttsCall 1, Ev.segmentDone 1, Ev.closeCompleted] : List Ev) :=
  ⟨(decrement_at_most_once_and_late wDb wChatOracle 0 (some "alice") (some "hello")).1,
   ((decrement_at_most_once_and_late wDb wChatOracle 0 (some "alice") (some "hello")).2.1
      [Ev.checkLimit, Ev.genCall, Ev.openSession, Ev.ttsCall 0, Ev.segmentDone 0,
       Ev.ttsCall 1, Ev.segmentDone 1, Ev.closeCompleted] [Ev.decApplied] (by decide)).1,
   ((decrement_at_most_once_and_late wDb wChatOracle 0 (some "alice") (some "hello")).2.1
      [Ev.checkLimit, Ev.genCall, Ev.openSession, Ev.ttsCall 0, Ev.segmentDone 0,
       Ev.ttsCall 1, Ev.segmentDone 1, Ev.closeCompleted] [Ev.decApplied] (by decide)).2
      0 (by decide),
   ((decrement_at_most_once_and_late wDb wChatOracle 0 (some "alice") (some "hello")).2.1
      [Ev.checkLimit, Ev.genCall, Ev.openSession, Ev.ttsCall 0, Ev.segmentDone 0,
       Ev.ttsCall 1, Ev.segmentDone 1, Ev.closeCompleted] [Ev.decApplied] (by decide)).2
      1 (by decide)⟩

/-- Witness for C4 at a concrete failing store: the lazy plan creation
errors, and the call still answers the deny result. -/
theorem checkquota_never_raises_runs :
    (∃ r, (checkMessageLimitTry Db.empty ⟨false, true, false⟩ 0 "alice").2 = .ok r
       ∧ (checkMessageLimit Db.empty ⟨false, true, false⟩ 0 "alice").2 = r)
    ∨ (∃ e, (checkMessageLimitTry Db.empty ⟨false, true, false⟩ 0 "alice").2 = .error e
       ∧ (checkMessageLimit Db.empty ⟨false, true, false⟩ 0 "alice").2
           = { canSend := false, remaining := 0 }) :=
  checkquota_never_raises Db.empty ⟨false, true, false⟩ 0 "alice"

/-- Counterexample to the original claim C4: with a failing select, a free
user whose stored record has zero messages left gets `canSend = true`,
`remaining = 1` — the ignored select error makes the record invisible and
lazy plan creation answers allow, not the claimed deny result. -/
theorem checkquota_deny_on_failure_refuted :
    (checkMessageLimit ⟨[⟨"alice", "free", 0, 0, none⟩], []⟩
        ⟨true, false, false⟩ 0 "alice").2
      = { canSend := true, remaining := 1 }
    ∧ (checkMessageLimit ⟨[⟨"alice", "free", 0, 0, none⟩], []⟩
        ⟨true, false, false⟩ 0 "alice").2
      ≠ { canSend := false, remaining := 0 } := by
  refine ⟨by decide, by decide⟩

/-- Witness for C9 at a concrete request with no userId. -/
theorem missing_userid_answers_500_runs :
    (chatHandler Db.empty wChatOracle 0 none (some "hi")).2.1 = .serverError pathTypeError
    ∧ (chatHandler Db.empty wChatOracle 0 none (some "hi")).2.1 ≠ .badRequest :=
  missing_userid_answers_500 Db.empty wChatOracle 0 (some "hi")

/-- Witness for C10 at a concrete well-formed submission. -/
theorem verify_route_never_500_runs :
    (verifyPaymentRoute Db.empty noFailVerify 0
        (some "bob") (some "fq82lw7rm04bzjn") (some "pro")).2 ≠ .serverErr
    ∧ ((verifyPaymentRoute Db.empty noFailVerify 0
          (some "bob") (some "fq82lw7rm04bzjn") (some "pro")).2 = .missingFields
       ∨ (verifyPaymentRoute Db.empty noFailVerify 0
            (some "bob") (some "fq82lw7rm04bzjn") (some "pro")).2 = .okResp
       ∨ ∃ e, (verifyPaymentRoute Db.empty noFailVerify 0
            (some "bob") (some "fq82lw7rm04bzjn") (some "pro")).2 = .badResp (some e)) :=
  verify_route_never_500 Db.empty noFailVerify 0
    (some "bob") (some "fq82lw7rm04bzjn") (some "pro")

end ChatBackend
